import Mathlib

/-!
The pumpfun-launcher: pricing, instruction encoding, retry loops and signing

A shallow embedding of the Go sources

* `internal/types/main.go` (`BuyData`, `CreateData`, `GlobalAccount`,
  `GlobalAccount.GetInitialBuyPrice`),
* `internal/programs/accounts.go` (the `Derive*` helpers),
* `internal/programs/pumpfun.go` (`NewBuyIx`, `NewCreateIx`),
* `internal/services/rpc_client.go` (`LaunchToken`, `AddBuyInstruction`,
  `AddCreateInstruction`, `getGlobalAccount`),

followed by the theorems about them.

Conventions.  A Go `uint64` is a `Nat`; where the code converts or could wrap,
the reduction `% 2 ^ 64` is written out.  A `*big.Int` is an `Int`.  A byte is a
`UInt8`, a Go `string` and a `[]byte` are `List UInt8`.  A Go function returning
`(T, error)` returns `Except _ T`; a run-time panic is an error value of its own.
-/

namespace PumpfunLauncher

/-! ## `internal/types/main.go` -/

/-- A `solana.PublicKey` is the Go array type `[32]byte`; the model keeps the bytes in a
list and the theorems that need the length ask for it. -/
abbrev PublicKey := List UInt8

/-- The Go struct `types.BuyData`; both fields are `uint64`. -/
structure BuyData where
  Amount : Nat
  MaxSolCost : Nat
  deriving DecidableEq, Repr

/-- The Go struct `types.CreateData`; the three strings are byte sequences. -/
structure CreateData where
  Name : List UInt8
  Symbol : List UInt8
  Uri : List UInt8
  Creator : PublicKey
  deriving DecidableEq, Repr

/-- The Go struct `types.GlobalAccount`; the numeric fields are `uint64`. -/
structure GlobalAccount where
  Discriminator : Nat
  Initialized : Bool
  Authority : PublicKey
  FeeRecipient : PublicKey
  InitialVirtualTokenReserves : Nat
  InitialVirtualSolReserves : Nat
  InitialRealTokenReserves : Nat
  TokenTotalSupply : Nat
  FeeBasisPoints : Nat
  deriving DecidableEq, Repr

/-- Every `uint64` field of a `GlobalAccount` fits 64 bits. -/
def GlobalAccount.WellFormed (g : GlobalAccount) : Prop :=
  g.Discriminator < 2 ^ 64 ∧ g.InitialVirtualTokenReserves < 2 ^ 64 ∧
  g.InitialVirtualSolReserves < 2 ^ 64 ∧ g.InitialRealTokenReserves < 2 ^ 64 ∧
  g.TokenTotalSupply < 2 ^ 64 ∧ g.FeeBasisPoints < 2 ^ 64

instance (g : GlobalAccount) : Decidable g.WellFormed := by
  unfold GlobalAccount.WellFormed; infer_instance

/-- What `GetInitialBuyPrice` can end with other than a value: its two `fmt.Errorf`
results, and the panic `math/big` raises on a zero divisor. -/
inductive PriceError where
  | negativeTokenAmount
  | tokenAmountOverflow
  | divisionByZero
  deriving DecidableEq, Repr

instance instDecidableEqExcept {ε α : Type} [DecidableEq ε] [DecidableEq α] :
    DecidableEq (Except ε α)
  | .ok a, .ok b => if h : a = b then isTrue (by rw [h]) else isFalse (by simpa using h)
  | .error a, .error b => if h : a = b then isTrue (by rw [h]) else isFalse (by simpa using h)
  | .ok _, .error _ => isFalse (by simp)
  | .error _, .ok _ => isFalse (by simp)

/-- Library method `(*big.Int).Div`: Euclidean division (which `/` on `Int` is), a panic on
a zero divisor. -/
def bigDiv (x y : Int) : Except PriceError Int :=
  if y = 0 then .error .divisionByZero else .ok (x / y)

/-- Library method `(*big.Int).IsUint64`. -/
def bigIsUint64 (x : Int) : Bool := decide (0 ≤ x) && decide (x < 2 ^ 64)

/-- Library method `(*big.Int).Uint64`: the low 64 bits of the magnitude. -/
def bigUint64 (x : Int) : Nat := x.natAbs % 2 ^ 64

/-- Source function `func (g *GlobalAccount) GetInitialBuyPrice(solAmount uint64) (uint64,
error)`. -/
def GlobalAccount.GetInitialBuyPrice (g : GlobalAccount) (solAmount : Nat) :
    Except PriceError Nat :=
  if solAmount ≤ 0 then .ok 0
  else
    let vSol : Int := Int.ofNat g.InitialVirtualSolReserves
    let vToken : Int := Int.ofNat g.InitialVirtualTokenReserves
    -- Add 5% buffer to solAmount for slippage
    let amount : Int := Int.ofNat solAmount
    let buffer : Except PriceError Int := bigDiv amount 20
    buffer.bind fun buffer =>
    let amount : Int := amount + buffer
    -- k = x * y
    let k : Int := vSol * vToken
    -- i = x + amount
    let newSolReserves : Int := vSol + amount
    -- r = k / i, then one more
    (bigDiv k newSolReserves).bind fun r =>
    let r : Int := r + 1
    -- s = vToken - r
    let s : Int := vToken - r
    if s < 0 then .error .negativeTokenAmount
    else if !bigIsUint64 s then .error .tokenAmountOverflow
    else
      let result : Nat := bigUint64 s
      if result < g.InitialRealTokenReserves then .ok result
      else .ok g.InitialRealTokenReserves

/-! ### The pricing rule as the specification words it -/

/-- Step 2 of the specification: `effective = payment + floor(payment / 20)`. -/
def specEffective (p : Nat) : Nat := p + p / 20

/-- Step 3: `k = virtual_token_reserves * virtual_base_reserves`. -/
def specK (g : GlobalAccount) : Nat :=
  g.InitialVirtualTokenReserves * g.InitialVirtualSolReserves

/-- Step 4: `new_base = virtual_base_reserves + effective`. -/
def specNewBase (g : GlobalAccount) (p : Nat) : Nat :=
  g.InitialVirtualSolReserves + specEffective p

/-- Step 5: `remaining = floor(k / new_base) + 1`. -/
def specRemaining (g : GlobalAccount) (p : Nat) : Nat :=
  specK g / specNewBase g p + 1

/-- Step 6: `tokens_out = virtual_token_reserves - remaining`, a signed quantity. -/
def specTokensOut (g : GlobalAccount) (p : Nat) : Int :=
  (g.InitialVirtualTokenReserves : Int) - (specRemaining g p : Int)

/-- The state of the golden-value test: virtual reserves
`(30_000_000_000_000, 1_073_000_000_000_000)` and the given real token reserves. -/
def goldenState (real : Nat) : GlobalAccount :=
  { Discriminator := 0, Initialized := true, Authority := [], FeeRecipient := [],
    InitialVirtualTokenReserves := 1073000000000000,
    InitialVirtualSolReserves := 30000000000000,
    InitialRealTokenReserves := real,
    TokenTotalSupply := 1000000000000000, FeeBasisPoints := 100 }



/-! ## `crypto/sha256` (FIPS 180-4), words as `Nat` below `2 ^ 32` -/

/-- The first 64 primes. -/
def sha256Primes : List Nat :=
  [2, 3, 5, 7, 11, 13, 17, 19, 23, 29, 31, 37, 41, 43, 47, 53,
   59, 61, 67, 71, 73, 79, 83, 89, 97, 101, 103, 107, 109, 113, 127, 131,
   137, 139, 149, 151, 157, 163, 167, 173, 179, 181, 191, 193, 197, 199, 211, 223,
   227, 229, 233, 239, 241, 251, 257, 263, 269, 271, 277, 281, 283, 293, 307, 311]

/-- The integer `k`-th root of `n`, found bit by bit from bit `b - 1` down: the largest
`r` extending the start value with `r ^ k ≤ n`. -/
def iroot (k n : Nat) : Nat → Nat → Nat
  | 0, r => r
  | b + 1, r => if (r + 2 ^ b) ^ k ≤ n then iroot k n b (r + 2 ^ b) else iroot k n b r

/-- The 64 round constants: the first 32 bits of the fractional parts of the cube roots of
the first 64 primes. -/
def sha256K : List Nat :=
  sha256Primes.map fun p => iroot 3 (p * 2 ^ 96) 40 0 % 2 ^ 32

/-- The initial hash value: the first 32 bits of the fractional parts of the square roots
of the first 8 primes. -/
def sha256Init : List Nat :=
  (sha256Primes.take 8).map fun p => iroot 2 (p * 2 ^ 64) 40 0 % 2 ^ 32

/-- Rotate a 32-bit word right by `n` bits. -/
def rotr32 (x n : Nat) : Nat := (x >>> n ||| x <<< (32 - n)) % 2 ^ 32

/-- Addition of 32-bit words. -/
def add32 (a b : Nat) : Nat := (a + b) % 2 ^ 32

/-- Bitwise complement of a 32-bit word. -/
def not32 (x : Nat) : Nat := x ^^^ 0xffffffff

/-- The schedule function `σ0`. -/
def smallSigma0 (x : Nat) : Nat := rotr32 x 7 ^^^ rotr32 x 18 ^^^ x >>> 3

/-- The schedule function `σ1`. -/
def smallSigma1 (x : Nat) : Nat := rotr32 x 17 ^^^ rotr32 x 19 ^^^ x >>> 10

/-- The compression function `Σ0`. -/
def bigSigma0 (x : Nat) : Nat := rotr32 x 2 ^^^ rotr32 x 13 ^^^ rotr32 x 22

/-- The compression function `Σ1`. -/
def bigSigma1 (x : Nat) : Nat := rotr32 x 6 ^^^ rotr32 x 11 ^^^ rotr32 x 25

/-- The choice function `Ch`. -/
def ch (x y z : Nat) : Nat := (x &&& y) ^^^ (not32 x &&& z)

/-- The majority function `Maj`. -/
def maj (x y z : Nat) : Nat := (y &&& z) ^^^ (x &&& z) ^^^ (x &&& y)

/-- One round: the working variables `a..h`, with round constant `k` and schedule word `w`. -/
def sha256Round (st : List Nat) (k w : Nat) : List Nat :=
  match st with
  | [a, b, c, d, e, f, g, h] =>
    let t1 := add32 (add32 (add32 (add32 h (bigSigma1 e)) (ch e f g)) k) w
    let t2 := add32 (bigSigma0 a) (maj a b c)
    [add32 t1 t2, a, b, c, add32 d t1, e, f, g]
  | _ => st

/-- The next word of the message schedule from the window of the last 16 words. -/
def sha256Next (win : List Nat) : Nat :=
  add32 (add32 (add32 (smallSigma1 (win.getD 14 0)) (win.getD 9 0)) (smallSigma0 (win.getD 1 0)))
    (win.getD 0 0)

/-- The 64 rounds over the constants `ks`, sliding the schedule window along. -/
def sha256Rounds : List Nat → List Nat → List Nat → List Nat
  | [], st, _ => st
  | k :: ks, st, win =>
    sha256Rounds ks (sha256Round st k (win.getD 0 0)) (win.tail ++ [sha256Next win])

/-- A big-endian 32-bit word from 4 bytes. -/
def be32 (bs : List UInt8) : Nat :=
  bs.foldl (fun acc b => acc * 256 + b.toNat) 0

/-- The 16 words of a 64-byte block. -/
def blockWords (block : List UInt8) : List Nat :=
  (List.range 16).map fun i => be32 ((block.drop (4 * i)).take 4)

/-- Process one block. -/
def sha256Block (h : List Nat) (block : List UInt8) : List Nat :=
  List.zipWith add32 h (sha256Rounds sha256K h (blockWords block))

/-- The value `n` as `len` big-endian bytes. -/
def beBytes (len n : Nat) : List UInt8 :=
  (List.range len).map fun i => UInt8.ofNat (n / 256 ^ (len - 1 - i) % 256)

/-- Message padding: a `0x80` byte, zeros up to 56 modulo 64, the bit length on 8 bytes. -/
def sha256Pad (msg : List UInt8) : List UInt8 :=
  msg ++ [0x80] ++ List.replicate ((119 - msg.length % 64) % 64) 0 ++ beBytes 8 (8 * msg.length)

/-- Library function `sha256.Sum256`: the 32-byte digest of a message. -/
def Sum256 (msg : List UInt8) : List UInt8 :=
  let padded := sha256Pad msg
  let h := (List.range (padded.length / 64)).foldl
    (fun h i => sha256Block h ((padded.drop (64 * i)).take 64)) sha256Init
  h.flatMap (beBytes 4)

/-- The conversion `[]byte(s)` of a Go string literal: its UTF-8 bytes. -/
def goBytes (s : String) : List UInt8 := s.toList.flatMap String.utf8EncodeChar


/-! ## `mr-tron/base58` and `solana.PublicKeyFromBase58` -/

/-- The Bitcoin base-58 alphabet. -/
def base58Alphabet : List Char :=
  "123456789ABCDEFGHJKLMNPQRSTUVWXYZabcdefghijkmnopqrstuvwxyz".toList

/-- The value of a base-58 digit, if the character is one. -/
def base58Digit (c : Char) : Option Nat :=
  let i := base58Alphabet.indexOf c
  if i < 58 then some i else none

/-- Library function `base58.Decode`: one zero byte per leading `1`, then the number in
big-endian bytes. -/
def base58Decode (s : String) : Option (List UInt8) :=
  (s.toList.mapM base58Digit).map fun ds =>
    let n := ds.foldl (fun acc d => acc * 58 + d) 0
    List.replicate (ds.takeWhile (· == 0)).length 0
      ++ (beBytes ds.length n).dropWhile (· == 0)

/-- The zero value of `solana.PublicKey`. -/
def zeroPublicKey : PublicKey := List.replicate 32 0

/-- Library function `solana.PublicKeyFromBase58`: the decoded key, or the zero key and an
error when the
text is not base 58 or does not decode to 32 bytes. -/
def PublicKeyFromBase58 (s : String) : PublicKey × Option String :=
  match base58Decode s with
  | none => (zeroPublicKey, some "decode")
  | some val =>
    if val.length ≠ 32 then (zeroPublicKey, some "invalid length") else (val, none)

/-- Library constant `solana.SystemProgramID`. -/
def SystemProgramID : PublicKey := (PublicKeyFromBase58 "11111111111111111111111111111111").1

/-- Library constant `solana.TokenProgramID`. -/
def TokenProgramID : PublicKey :=
  (PublicKeyFromBase58 "TokenkegQfeZyiNwAJbNbGKPFXCWuBvf9Ss623VQ5DA").1

/-- Library constant `associatedtokenaccount.ProgramID`. -/
def AssociatedTokenProgramID : PublicKey :=
  (PublicKeyFromBase58 "ATokenGPvbdGVxr1b2hvZbsiqW5xWH25efTNsLJA8knL").1

/-- Library constant `solana.SysVarRentPubkey`. -/
def SysVarRentPubkey : PublicKey :=
  (PublicKeyFromBase58 "SysvarRent111111111111111111111111111111111").1

/-! ## `encoding/binary` and `near/borsh-go` -/

/-- The Go conversion `byte(v)`: the low 8 bits. -/
def toByte (v : Nat) : UInt8 := UInt8.ofNat (v % 256)

/-- Library function `binary.LittleEndian.PutUint32`. -/
def PutUint32 (v : Nat) : List UInt8 :=
  [toByte v, toByte (v >>> 8), toByte (v >>> 16), toByte (v >>> 24)]

/-- Library function `binary.LittleEndian.PutUint64`. -/
def PutUint64 (v : Nat) : List UInt8 :=
  [toByte v, toByte (v >>> 8), toByte (v >>> 16), toByte (v >>> 24),
   toByte (v >>> 32), toByte (v >>> 40), toByte (v >>> 48), toByte (v >>> 56)]

/-- The borsh encoding of a string: `uint32(len(s))` in little-endian, then the bytes. -/
def borshString (s : List UInt8) : List UInt8 :=
  PutUint32 (s.length % 2 ^ 32) ++ s

/-- Library call `borsh.Serialize(types.BuyData{...})`: the fields in declaration order. -/
def borshSerializeBuyData (d : BuyData) : List UInt8 :=
  PutUint64 d.Amount ++ PutUint64 d.MaxSolCost

/-- Library call `borsh.Serialize(createData)`: the fields in declaration order, the
creator array as
its raw bytes. -/
def borshSerializeCreateData (d : CreateData) : List UInt8 :=
  borshString d.Name ++ (borshString d.Symbol ++ (borshString d.Uri ++ d.Creator))

/-! ### Little-endian bytes as the specification words them -/

/-- The byte of weight `256 ^ i` of `n`. -/
def specByte (n i : Nat) : UInt8 := UInt8.ofNat (n / 256 ^ i % 256)

/-- The value `n` as `width` little-endian bytes: byte `i` has weight `256 ^ i`. -/
def specLE (width n : Nat) : List UInt8 := (List.range width).map (specByte n)

/-- The value a little-endian byte string denotes. -/
def leValue : List UInt8 → Nat
  | [] => 0
  | b :: bs => b.toNat + 256 * leValue bs

/-! ## `internal/programs/accounts.go` -/

/-- What the sources use without declaring it: the library function
`solana.FindProgramAddress` (result: address, bump, error) and the target program
`solana.MustPublicKeyFromBase58(internal.PUMP_FUN_PROGRAM)`, whose constant lives in
package `internal`. -/
structure Env where
  FindProgramAddress : List (List UInt8) → PublicKey → PublicKey × Nat × Option String
  program : PublicKey

/-- Source function `DeriveMintAuthority`, seeds `["mint-authority"]`. -/
def DeriveMintAuthority (env : Env) (programID : PublicKey) : PublicKey × Nat × Option String :=
  env.FindProgramAddress [goBytes "mint-authority"] programID

/-- Source function `DeriveBondingCurve`, seeds `["bonding-curve", mint]`. -/
def DeriveBondingCurve (env : Env) (mint programID : PublicKey) :
    PublicKey × Nat × Option String :=
  env.FindProgramAddress [goBytes "bonding-curve", mint] programID

/-- Source function `DeriveGlobal`, seeds `["global"]`. -/
def DeriveGlobal (env : Env) (programID : PublicKey) : PublicKey × Nat × Option String :=
  env.FindProgramAddress [goBytes "global"] programID

/-- Source function `DeriveAssociatedBondingCurve`, seeds `[bondingCurve, tokenProgramID, mint]`. -/
def DeriveAssociatedBondingCurve (env : Env) (mint bondingCurve : PublicKey) :
    PublicKey × Nat × Option String :=
  env.FindProgramAddress [bondingCurve, TokenProgramID, mint] AssociatedTokenProgramID

/-- Source function `DeriveMetadata`, seeds `["metadata", mplTokenMetadata, mint]`. -/
def DeriveMetadata (env : Env) (mint mplTokenMetadata : PublicKey) :
    PublicKey × Nat × Option String :=
  env.FindProgramAddress [goBytes "metadata", mplTokenMetadata, mint] mplTokenMetadata

/-- Source function `DeriveAssociatedTokenAccount`, seeds `[wallet, tokenProgramID, mint]`. -/
def DeriveAssociatedTokenAccount (env : Env) (wallet mint : PublicKey) :
    PublicKey × Nat × Option String :=
  env.FindProgramAddress [wallet, TokenProgramID, mint] AssociatedTokenProgramID

/-- Source function `DeriveCreatorVault`, seeds `["creator-vault", creator]`. -/
def DeriveCreatorVault (env : Env) (creator programID : PublicKey) :
    PublicKey × Nat × Option String :=
  env.FindProgramAddress [goBytes "creator-vault", creator] programID

/-! ## `internal/programs/pumpfun.go` -/

/-- Library struct `solana.AccountMeta`. -/
structure AccountMeta where
  PublicKey : PumpfunLauncher.PublicKey
  IsWritable : Bool
  IsSigner : Bool
  deriving DecidableEq, Repr

/-- Library struct `solana.GenericInstruction`. -/
structure GenericInstruction where
  AccountValues : List AccountMeta
  ProgID : PublicKey
  DataBytes : List UInt8
  deriving DecidableEq, Repr

/-- Source function `func NewBuyIx(amount, maxSolCost uint64, feeRecipient, mint, assocBondingCurve,
assocUser, user, systemProgram, tokenProgram, creatorVault, eventAuthority
solana.PublicKey) *solana.GenericInstruction`. -/
def NewBuyIx (env : Env) (amount maxSolCost : Nat)
    (feeRecipient mint assocBondingCurve assocUser user systemProgram tokenProgram
      creatorVault eventAuthority : PublicKey) : GenericInstruction :=
  let program := env.program
  let buyDiscriminator := Sum256 (goBytes "global:buy")
  let argsBin := borshSerializeBuyData { Amount := amount, MaxSolCost := maxSolCost }
  let data := buyDiscriminator.take 8 ++ argsBin
  -- Derive PDAs
  let global := (DeriveGlobal env program).1
  let bondingCurve := (DeriveBondingCurve env mint program).1
  let metas : List AccountMeta := [
    { PublicKey := global, IsWritable := false, IsSigner := false },
    { PublicKey := feeRecipient, IsWritable := true, IsSigner := false },
    { PublicKey := mint, IsWritable := false, IsSigner := false },
    { PublicKey := bondingCurve, IsWritable := true, IsSigner := false },
    { PublicKey := assocBondingCurve, IsWritable := true, IsSigner := false },
    { PublicKey := assocUser, IsWritable := true, IsSigner := false },
    { PublicKey := user, IsWritable := true, IsSigner := true },
    { PublicKey := systemProgram, IsWritable := false, IsSigner := false },
    { PublicKey := tokenProgram, IsWritable := false, IsSigner := false },
    { PublicKey := creatorVault, IsWritable := true, IsSigner := false },
    { PublicKey := eventAuthority, IsWritable := false, IsSigner := false },
    { PublicKey := program, IsWritable := false, IsSigner := false }]
  { AccountValues := metas, ProgID := program, DataBytes := data }

/-- The metadata program, `solana.PublicKeyFromBase58` of the literal in `NewCreateIx`
(the error is ignored there). -/
def mplTokenMetadata : PublicKey :=
  (PublicKeyFromBase58 "metaqbxxUerdq28cj1RbAWkYQm3ybzjb6a8bt518x1s").1

/-- The event authority, `solana.PublicKeyFromBase58` of the literal in `NewCreateIx` and
`AddBuyInstruction` (the error is ignored there). -/
def eventAuthority : PublicKey :=
  (PublicKeyFromBase58 "Ce6TQqeHC9p8KetsN6JsjHK7UTZk7nasjjnr7XxXp9F1").1

/-- Source function `func NewCreateIx(mint, user solana.PublicKey, createData types.CreateData)
*solana.GenericInstruction`. -/
def NewCreateIx (env : Env) (mint user : PublicKey) (createData : CreateData) :
    GenericInstruction :=
  let program := env.program
  let createDiscriminator := Sum256 (goBytes "global:create")
  let argsBin := borshSerializeCreateData createData
  let data := createDiscriminator.take 8 ++ argsBin
  let mintAuthority := (DeriveMintAuthority env program).1
  let bondingCurve := (DeriveBondingCurve env mint program).1
  let global := (DeriveGlobal env program).1
  let associatedBondingCurve := (DeriveAssociatedBondingCurve env mint bondingCurve).1
  let metadata := (DeriveMetadata env mint mplTokenMetadata).1
  let metas : List AccountMeta := [
    { PublicKey := mint, IsWritable := true, IsSigner := true },
    { PublicKey := mintAuthority, IsWritable := false, IsSigner := false },
    { PublicKey := bondingCurve, IsWritable := false, IsSigner := false },
    { PublicKey := associatedBondingCurve, IsWritable := true, IsSigner := false },
    { PublicKey := global, IsWritable := true, IsSigner := false },
    { PublicKey := mplTokenMetadata, IsWritable := false, IsSigner := false },
    { PublicKey := metadata, IsWritable := true, IsSigner := false },
    { PublicKey := user, IsWritable := true, IsSigner := true },
    { PublicKey := SystemProgramID, IsWritable := false, IsSigner := false },
    { PublicKey := TokenProgramID, IsWritable := false, IsSigner := false },
    { PublicKey := AssociatedTokenProgramID, IsWritable := false, IsSigner := false },
    { PublicKey := SysVarRentPubkey, IsWritable := false, IsSigner := false },
    { PublicKey := eventAuthority, IsWritable := false, IsSigner := false },
    { PublicKey := program, IsWritable := false, IsSigner := false }]
  { AccountValues := metas, ProgID := program, DataBytes := data }

/-- A state without virtual token reserves and with virtual base reserves 1. -/
def drainedState : GlobalAccount :=
  { Discriminator := 0, Initialized := true, Authority := [], FeeRecipient := [],
    InitialVirtualTokenReserves := 0, InitialVirtualSolReserves := 1,
    InitialRealTokenReserves := 793100000000000,
    TokenTotalSupply := 1000000000000000, FeeBasisPoints := 100 }


/-! ## `internal/services/rpc_client.go`

The remote node is a table of answers: for each operation, what it answers to the `i`-th
call (counted from 0).  Time is counted in the seconds the program has waited in
`time.Sleep` since `LaunchToken` began; a context made by `context.WithTimeout` expires
when the waits reach its timeout, and a call under an expired context returns
`context deadline exceeded` whatever the node would answer.  The time a call itself takes
is part of the node's answer.  The log lines are not modelled; every remote call and every
`time.Sleep` is recorded as an event. -/

/-- An ed25519 private key as a `solana.Wallet` holds it, a valid key pair made by
`solana.NewWallet` or read by `solana.WalletFromPrivateKeyBase58`.  Key pairs are modelled
symbolically: a private key is known by the public key it signs for, so two key pairs with
one address are one key; the 64 key bytes are not modelled.  The field is the Go method
`PrivateKey.PublicKey()`. -/
structure PrivateKey where
  PublicKey : PumpfunLauncher.PublicKey
  deriving DecidableEq, Repr

/-- The Go struct `solana.Wallet`. -/
structure Wallet where
  PrivateKey : PumpfunLauncher.PrivateKey
  deriving DecidableEq, Repr

/-- Library method `(*Wallet).PublicKey`: the public key of the private key. -/
def Wallet.PublicKey (w : Wallet) : PumpfunLauncher.PublicKey :=
  w.PrivateKey.PublicKey

/-- The Go struct `types.Metadata`. -/
structure Metadata where
  Name : List UInt8
  Symbol : List UInt8
  Description : List UInt8
  Image : List UInt8
  ShowName : Bool
  CreatedOn : List UInt8
  Twitter : List UInt8
  Telegram : List UInt8
  Website : List UInt8
  deriving DecidableEq, Repr

/-- An error returned by a remote call: an error of the node, tagged with its kind, or
`context deadline exceeded`.  The Go code holds it in a plain `error` and never inspects
the kind. -/
inductive RPCError where
  | transient (code : Nat)
  | permanent (code : Nat)
  | deadlineExceeded
  deriving DecidableEq, Repr

/-- The three remote operations. -/
inductive RemoteOp where
  | getAccountInfo
  | getLatestBlockhash
  | sendTransaction
  deriving DecidableEq, Repr

/-- What a run does that can be observed from outside: a remote call (operation and
0-based attempt number) or a sleep of some seconds. -/
inductive Event where
  | call (op : RemoteOp) (attempt : Nat)
  | sleep (seconds : Nat)
  deriving DecidableEq, Repr

/-- Library struct `rpc.GetLatestBlockhashResult`: the blockhash and the context slot. -/
structure BlockhashResult where
  Blockhash : List UInt8
  Slot : Nat
  deriving DecidableEq, Repr

/-- A `solana.Transaction`: instructions, recent blockhash, fee payer, signatures. -/
structure Transaction where
  Instructions : List GenericInstruction
  RecentBlockhash : List UInt8
  FeePayer : PublicKey
  Signatures : List (List UInt8)
  deriving DecidableEq, Repr

/-- Library struct `rpc.TransactionOpts`, the fields the code sets. -/
structure TransactionOpts where
  SkipPreflight : Bool
  PreflightCommitmentProcessed : Bool
  MinContextSlot : Option Nat
  deriving DecidableEq, Repr

/-- The remote node: the answer of the `i`-th call of each operation. -/
structure Node where
  GetAccountInfoWithOpts : Nat → PublicKey → Except RPCError (List UInt8)
  GetLatestBlockhash : Nat → Except RPCError BlockhashResult
  SendTransactionWithOpts : Nat → Transaction → TransactionOpts → Except RPCError (List UInt8)

/-- What `rpc_client.go` uses from a library and from the machine: `borsh.Deserialize`
into a `GlobalAccount`, and the floating-point product
`uint64(float64(solAmount) * 1.1)`. -/
structure Services where
  Deserialize : List UInt8 → Except String GlobalAccount
  lamportsWithBuffer : Nat → Nat

/-- A `context.Context` with a deadline: the time, in seconds waited since `LaunchToken`
began, at which it expires. -/
structure Context where
  deadline : Nat
  deriving DecidableEq, Repr

/-- Library function `context.WithTimeout(context.Background(), timeout)` called at time
`now`. -/
def WithTimeout (now timeout : Nat) : Context :=
  { deadline := now + timeout }

/-- A remote call under a context at time `now`: `context deadline exceeded` once the
context has expired, else the answer of the node. -/
def Context.call {α : Type} (ctx : Context) (now : Nat) (answer : Except RPCError α) :
    Except RPCError α :=
  if ctx.deadline ≤ now then .error .deadlineExceeded else answer

/-- The seconds a retry loop has waited before its attempt `i` (from 0): the sleeps of
`1, 2, .., i` seconds after the failed attempts before it. -/
def waitedBefore (i : Nat) : Nat :=
  ((List.range i).map fun j => j + 1).sum

/-- The seconds waited in some events. -/
def slept (events : List Event) : Nat :=
  (events.map fun ev => match ev with
    | .call _ _ => 0
    | .sleep seconds => seconds).sum

/-- The Go struct `RPCClient`; `mint` is a nil pointer until `AddCreateInstruction` runs. -/
structure RPCClient where
  user : Wallet
  mint : Option Wallet
  deriving DecidableEq, Repr

/-- The variables a retry loop assigns, and the events so far. -/
structure LoopVars (α : Type) where
  value : Option α
  err : Option RPCError
  events : List Event

/-- The loop `for i := 0; i < 3; i++ { v, err = call(); if err == nil { break };
log.Printf(...); time.Sleep(time.Second * time.Duration(i+1)) }`, entered at `i` with
`remaining = 3 - i` iterations left. -/
def retryLoop {α : Type} (op : RemoteOp) (call : Nat → Except RPCError α) :
    Nat → Nat → LoopVars α → LoopVars α
  | 0, _, st => st
  | remaining + 1, i, st =>
    match call i with
    | .ok v =>
      { value := some v, err := none, events := st.events ++ [Event.call op i] }
    | .error e =>
      retryLoop op call remaining (i + 1)
        { value := none, err := some e,
          events := st.events ++ [Event.call op i, Event.sleep (i + 1)] }

/-- The result of a retry block: the value or the wrapped error, and the events. -/
structure Block (ε α : Type) where
  result : Except ε (Option α)
  events : List Event

/-- A retry block as it stands three times in the file: the loop from `i = 0`, then
`if err != nil { return fmt.Errorf("... after retries: %w", err) }`. -/
def retryBlock {ε α : Type} (op : RemoteOp) (call : Nat → Except RPCError α)
    (wrap : RPCError → ε) : Block ε α :=
  let st := retryLoop op call 3 0 { value := none, err := none, events := [] }
  match st.err with
  | some err => { result := .error (wrap err), events := st.events }
  | none => { result := .ok st.value, events := st.events }

/-- The errors of `getGlobalAccount`. -/
inductive GlobalError where
  | derivingGlobal (e : String)
  | accountInfoAfterRetries (e : RPCError)
  | notFound
  | empty
  | deserializing (e : String)
  deriving DecidableEq, Repr

/-- The errors of `AddBuyInstruction`. -/
inductive BuyError where
  | getGlobalAccount (e : GlobalError)
  | calculate (e : PriceError)
  deriving DecidableEq, Repr

/-- The errors of `LaunchToken`, and the panic of a nil pointer. -/
inductive LaunchError where
  | addCreate (e : String)
  | addBuy (e : BuyError)
  | blockhashAfterRetries (e : RPCError)
  | createTransaction (e : String)
  | sign (e : String)
  | sendAfterRetries (e : RPCError)
  | nilPointer
  deriving DecidableEq, Repr

/-- What attempt `i` of the loop of `getGlobalAccount` returns:
`c.rpcClient.GetAccountInfoWithOpts(ctx, globalAccount, ...)`, the loop entered at time
`now`. -/
def accountInfoAttempt (node : Node) (ctx : Context) (now : Nat) (globalAccount : PublicKey)
    (i : Nat) : Except RPCError (List UInt8) :=
  ctx.call (now + waitedBefore i) (node.GetAccountInfoWithOpts i globalAccount)

/-- The retry block of `getGlobalAccount` (lines 200-213). -/
def accountInfoBlock (node : Node) (ctx : Context) (now : Nat) (globalAccount : PublicKey) :
    Block GlobalError (List UInt8) :=
  retryBlock .getAccountInfo (accountInfoAttempt node ctx now globalAccount)
    GlobalError.accountInfoAfterRetries

/-- What attempt `i` of the blockhash loop returns:
`c.rpcClient.GetLatestBlockhash(ctx, rpc.CommitmentProcessed)`, the loop entered at time
`now`. -/
def blockhashAttempt (node : Node) (ctx : Context) (now : Nat) (i : Nat) :
    Except RPCError BlockhashResult :=
  ctx.call (now + waitedBefore i) (node.GetLatestBlockhash i)

/-- The blockhash retry block of `LaunchToken` (lines 72-83). -/
def blockhashBlock (node : Node) (ctx : Context) (now : Nat) :
    Block LaunchError BlockhashResult :=
  retryBlock .getLatestBlockhash (blockhashAttempt node ctx now)
    LaunchError.blockhashAfterRetries

/-- What attempt `i` of the send loop returns:
`c.rpcClient.SendTransactionWithOpts(ctx, tx, rpc.TransactionOpts{...})` with preflight
kept, commitment processed and the minimum context slot of the blockhash, the loop entered
at time `now`. -/
def sendAttempt (node : Node) (ctx : Context) (now : Nat) (tx : Transaction) (slot : Nat)
    (i : Nat) : Except RPCError (List UInt8) :=
  ctx.call (now + waitedBefore i)
    (node.SendTransactionWithOpts i tx
      { SkipPreflight := false, PreflightCommitmentProcessed := true,
        MinContextSlot := some slot })

/-- The send retry block of `LaunchToken` (lines 108-128). -/
def sendBlock (node : Node) (ctx : Context) (now : Nat) (tx : Transaction) (slot : Nat) :
    Block LaunchError (List UInt8) :=
  retryBlock .sendTransaction (sendAttempt node ctx now tx slot)
    LaunchError.sendAfterRetries

/-- Source function `func (c *RPCClient) getGlobalAccount(ctx) (*types.GlobalAccount,
error)`, called at time `now`. -/
def getGlobalAccount (env : Env) (sv : Services) (node : Node) (ctx : Context)
    (now : Nat) : Except GlobalError GlobalAccount × List Event :=
  let programID := env.program
  match DeriveGlobal env programID with
  | (_, _, some err) => (.error (.derivingGlobal err), [])
  | (globalAccount, _, none) =>
    let blk := accountInfoBlock node ctx now globalAccount
    match blk.result with
    | .error err => (.error err, blk.events)
    | .ok none => (.error .notFound, blk.events)
    | .ok (some rawData) =>
      if rawData.length = 0 then (.error .empty, blk.events)
      else
        match sv.Deserialize rawData with
        | .error err => (.error (.deserializing err), blk.events)
        | .ok globalData => (.ok globalData, blk.events)

/-- Source function `func (c *RPCClient) AddBuyInstruction(mint, solAmount)
(*GenericInstruction, error)`, called at time `now`; it makes the 3 s context of the
global-state fetch. -/
def AddBuyInstruction (env : Env) (sv : Services) (node : Node) (c : RPCClient)
    (mint : PublicKey) (solAmount : Nat) (now : Nat) :
    Except BuyError GenericInstruction × List Event :=
  let ctx := WithTimeout now 3
  match getGlobalAccount env sv node ctx now with
  | (.error err, evs) => (.error (.getGlobalAccount err), evs)
  | (.ok globalAccount, evs) =>
    match globalAccount.GetInitialBuyPrice solAmount with
    | .error err => (.error (.calculate err), evs)
    | .ok buyAmount =>
      let lamportsWithBuffer := sv.lamportsWithBuffer solAmount
      let program := env.program
      let bondingCurve := (DeriveBondingCurve env mint program).1
      let assocBondingCurve := (DeriveAssociatedBondingCurve env mint bondingCurve).1
      let assocUser := (DeriveAssociatedTokenAccount env c.user.PublicKey mint).1
      let creatorVault := (DeriveCreatorVault env c.user.PublicKey program).1
      let buyIx := NewBuyIx env buyAmount lamportsWithBuffer globalAccount.FeeRecipient mint
        assocBondingCurve assocUser c.user.PublicKey SystemProgramID TokenProgramID
        creatorVault eventAuthority
      (.ok buyIx, evs)

/-- Source function `func (c *RPCClient) AddCreateInstruction(metadata, metadataUri)`:
stores the fresh wallet `solana.NewWallet()` in `c.mint` and builds the create
instruction. -/
def AddCreateInstruction (env : Env) (c : RPCClient) (fresh : Wallet) (metadata : Metadata)
    (metadataUri : List UInt8) : RPCClient × Except String GenericInstruction :=
  let c := { c with mint := some fresh }
  let createIx := NewCreateIx env fresh.PublicKey c.user.PublicKey
    { Name := metadata.Name, Symbol := metadata.Symbol, Uri := metadataUri,
      Creator := c.user.PublicKey }
  (c, .ok createIx)

/-- Library call `associatedtokenaccount.NewCreateInstruction(payer, wallet, mint).Build()`:
the payer (writable, signer), the associated token address of wallet and mint (writable),
the wallet, the mint, the system program, the token program and the rent sysvar
(read-only); no data. -/
def NewCreateInstruction (env : Env) (payer wallet mint : PublicKey) : GenericInstruction :=
  let associatedTokenAddress := (DeriveAssociatedTokenAccount env wallet mint).1
  { AccountValues := [
      { PublicKey := payer, IsWritable := true, IsSigner := true },
      { PublicKey := associatedTokenAddress, IsWritable := true, IsSigner := false },
      { PublicKey := wallet, IsWritable := false, IsSigner := false },
      { PublicKey := mint, IsWritable := false, IsSigner := false },
      { PublicKey := SystemProgramID, IsWritable := false, IsSigner := false },
      { PublicKey := TokenProgramID, IsWritable := false, IsSigner := false },
      { PublicKey := SysVarRentPubkey, IsWritable := false, IsSigner := false }],
    ProgID := AssociatedTokenProgramID,
    DataBytes := [] }

/-- Library function `solana.NewTransaction(instructions, blockhash,
solana.TransactionPayer(payer))`. -/
def NewTransaction (instructions : List GenericInstruction) (blockhash : List UInt8)
    (payer : PublicKey) : Except String Transaction :=
  if instructions.length = 0 then
    .error "requires at-least one instruction to create a transaction"
  else
    .ok { Instructions := instructions, RecentBlockhash := blockhash, FeePayer := payer,
          Signatures := [] }

/-- The keys that must sign: the fee payer and every account flagged is-signer in an
instruction, each once. -/
def Transaction.signerKeys (tx : Transaction) : List PublicKey :=
  (tx.FeePayer :: tx.Instructions.flatMap fun ix =>
    (ix.AccountValues.filter fun m => m.IsSigner).map fun m => m.PublicKey).eraseDups

/-- The loop of `(*Transaction).Sign` over the signer keys: a key the getter does not
resolve ends it with an error, so does a failing signature.  `sign` is the ed25519
signature of a transaction by a private key, `PrivateKey.Sign`. -/
def signLoop (sign : PrivateKey → Transaction → Except String (List UInt8))
    (tx : Transaction) (getter : PublicKey → Option PrivateKey) :
    List PublicKey → List (List UInt8) → Except String (List (List UInt8))
  | [], sigs => .ok sigs
  | key :: keys, sigs =>
    match getter key with
    | none => .error "signer key not found. Ensure all the signer keys are in the vault"
    | some privateKey =>
      match sign privateKey tx with
      | .error _ => .error "failed to signed with key"
      | .ok s => signLoop sign tx getter keys (sigs ++ [s])

/-- Library method `(*Transaction).Sign(getter)`. -/
def Transaction.Sign (sign : PrivateKey → Transaction → Except String (List UInt8))
    (tx : Transaction) (getter : PublicKey → Option PrivateKey) : Except String Transaction :=
  match signLoop sign tx getter tx.signerKeys tx.Signatures with
  | .error err => .error err
  | .ok sigs => .ok { tx with Signatures := sigs }

/-- The callback `LaunchToken` passes to `tx.Sign`: the user key for the user address,
else the mint key for the mint address, else `nil`. -/
def privateKeyGetter (user mint : Wallet) (key : PublicKey) : Option PrivateKey :=
  if key = user.PublicKey then some user.PrivateKey
  else if key = mint.PublicKey then some mint.PrivateKey
  else none

/-- What a run of `LaunchToken` leaves: the returned error (`none` is `nil`), the events,
the client, the transaction handed to `tx.Sign` when that point was reached, and the
signed transaction handed to the send loop when that point was reached. -/
structure LaunchResult where
  err : Option LaunchError
  events : List Event
  client : RPCClient
  tx : Option Transaction
  signed : Option Transaction

/-- Source function `func (c *RPCClient) LaunchToken(metadata, metadataUri, solAmount)
error`, begun at time 0; `fresh` is the wallet `solana.NewWallet()` returns inside
`AddCreateInstruction`, `sign` the ed25519 signature of the library. -/
def LaunchToken (env : Env) (sv : Services)
    (sign : PrivateKey → Transaction → Except String (List UInt8)) (node : Node)
    (c : RPCClient) (fresh : Wallet) (metadata : Metadata) (metadataUri : List UInt8)
    (solAmount : Nat) : LaunchResult :=
  let ctx := WithTimeout 0 30
  match AddCreateInstruction env c fresh metadata metadataUri with
  | (c, .error err) =>
    { err := some (.addCreate err), events := [], client := c, tx := none, signed := none }
  | (c, .ok createIx) =>
    match c.mint with
    | none =>
      { err := some .nilPointer, events := [], client := c, tx := none, signed := none }
    | some mint =>
      let createAssocIx :=
        NewCreateInstruction env c.user.PublicKey c.user.PublicKey mint.PublicKey
      match AddBuyInstruction env sv node c mint.PublicKey solAmount 0 with
      | (.error err, evs) =>
        { err := some (.addBuy err), events := evs, client := c, tx := none,
          signed := none }
      | (.ok buyIx, evs) =>
        let bhBlk := blockhashBlock node ctx (slept evs)
        let evs := evs ++ bhBlk.events
        match bhBlk.result with
        | .error err =>
          { err := some err, events := evs, client := c, tx := none, signed := none }
        | .ok none =>
          { err := some .nilPointer, events := evs, client := c, tx := none,
            signed := none }
        | .ok (some bh) =>
          match NewTransaction [createIx, createAssocIx, buyIx] bh.Blockhash
              c.user.PublicKey with
          | .error err =>
            { err := some (.createTransaction err), events := evs, client := c,
              tx := none, signed := none }
          | .ok tx =>
            match tx.Sign sign (privateKeyGetter c.user mint) with
            | .error err =>
              { err := some (.sign err), events := evs, client := c, tx := some tx,
                signed := none }
            | .ok signed =>
              -- Retry sending transaction
              let sendBlk := sendBlock node ctx (slept evs) signed bh.Slot
              match sendBlk.result with
              | .error err =>
                { err := some err, events := evs ++ sendBlk.events, client := c,
                  tx := some tx, signed := some signed }
              | .ok _ =>
                { err := none, events := evs ++ sendBlk.events, client := c,
                  tx := some tx, signed := some signed }

/-- Answers scripted by a list; once the list is used up the node does not answer in
time. -/
def scripted {α : Type} (outcomes : List (Except RPCError α)) (i : Nat) : Except RPCError α :=
  outcomes.getD i (.error (.transient 0))

/-- The number of remote calls among some events. -/
def attempts (events : List Event) : Nat :=
  (events.filter fun ev => match ev with
    | .call _ _ => true
    | .sleep _ => false).length

/-- The events of `k` failed attempts: attempt `i` (from 0), then a sleep of `i + 1`
seconds. -/
def failedAttempts (op : RemoteOp) (k : Nat) : List Event :=
  (List.range k).flatMap fun i => [Event.call op i, Event.sleep (i + 1)]

/-! ### The retry rule as the specification words it -/

/-- The retry rule for a loop of operation `op` whose attempts return `out 0`, `out 1`,
`out 2`, whose error is wrapped by `wrap`, and which ends as `blk`: at most 3 attempts; the
loop stops at the first successful attempt and yields its value, the wait after failed
attempt `i` (counted from 1) being `i` seconds; it fails exactly when all 3 attempts fail,
then with the third error, wrapped; a success on the third attempt after two failures
yields its value, as a success on the first attempt does. -/
def RetriesThreeTimes {ε α : Type} (op : RemoteOp) (out : Nat → Except RPCError α)
    (wrap : RPCError → ε) (blk : Block ε α) : Prop :=
  attempts blk.events ≤ 3 ∧
  (∀ i v, i < 3 → (∀ j, j < i → ∃ e, out j = .error e) → out i = .ok v →
    blk.result = .ok (some v) ∧
    blk.events = failedAttempts op i ++ [Event.call op i] ∧
    attempts blk.events = i + 1) ∧
  ((∃ x, blk.result = .error x) ↔ ∀ j, j < 3 → ∃ e, out j = .error e) ∧
  (∀ e, (∀ j, j < 2 → ∃ e2, out j = .error e2) → out 2 = .error e →
    blk.result = .error (wrap e) ∧
    blk.events = failedAttempts op 3 ∧
    attempts blk.events = 3) ∧
  (∀ e1 e2 v, out 0 = .error e1 → out 1 = .error e2 → out 2 = .ok v →
    blk.result = .ok (some v)) ∧
  (∀ v, out 0 = .ok v → blk.result = .ok (some v))

/-- An environment for examples: every derivation returns the first 32 bytes of the seeds
followed by the program address, with bump 255; the target program is 32 bytes `7`. -/
def sampleEnv : Env :=
  { FindProgramAddress := fun seeds prog => ((seeds.flatten ++ prog).take 32, 255, none),
    program := List.replicate 32 7 }

/-- Two `CreateData` values that differ in the symbol only. -/
def sampleCreateA : CreateData :=
  { Name := goBytes "Test Token", Symbol := goBytes "TEST", Uri := goBytes "ipfs://x",
    Creator := List.replicate 32 1 }

/-- The second value: symbol `TEST2`. -/
def sampleCreateB : CreateData :=
  { Name := goBytes "Test Token", Symbol := goBytes "TEST2", Uri := goBytes "ipfs://x",
    Creator := List.replicate 32 1 }


/-- A transaction without instructions, for the send block. -/
def sampleTx : Transaction :=
  { Instructions := [], RecentBlockhash := [2], FeePayer := [], Signatures := [] }

/-- A user wallet (the address is the public key of test 1 of RFC 8032). -/
def userWallet : Wallet :=
  { PrivateKey := { PublicKey :=
      [215, 90, 152, 1, 130, 177, 10, 183, 213, 75, 254, 211, 201, 100, 7, 58,
       14, 225, 114, 243, 218, 166, 35, 37, 175, 2, 26, 104, 247, 7, 81, 26] } }

/-- A mint wallet (the address is the public key of test 2 of RFC 8032). -/
def mintWallet : Wallet :=
  { PrivateKey := { PublicKey :=
      [61, 64, 23, 195, 232, 67, 137, 90, 146, 183, 10, 167, 77, 27, 126, 188,
       156, 152, 44, 207, 46, 196, 150, 140, 192, 205, 85, 241, 42, 244, 102, 12] } }

/-- A third address, of neither wallet (the public key of test 3 of RFC 8032). -/
def strangerKey : PublicKey :=
  [252, 81, 205, 142, 98, 24, 161, 163, 141, 164, 126, 208, 2, 48, 240, 88,
   8, 22, 237, 19, 186, 51, 3, 172, 93, 235, 145, 21, 72, 144, 128, 37]

/-- A transaction paid by the user whose one instruction asks for the signature of the
third address. -/
def strangerTx : Transaction :=
  { Instructions := [
      { AccountValues := [
          { PublicKey := userWallet.PublicKey, IsWritable := true, IsSigner := true },
          { PublicKey := strangerKey, IsWritable := true, IsSigner := true }],
        ProgID := SystemProgramID, DataBytes := [] }],
    RecentBlockhash := [2], FeePayer := userWallet.PublicKey, Signatures := [] }

/-- A stand-in for the ed25519 signature: the address of the signing key. -/
def sampleSign (key : PrivateKey) (_tx : Transaction) : Except String (List UInt8) :=
  .ok key.PublicKey

/-- A node that answers every operation on the third attempt only, after one transient
and one permanent error. -/
def thirdTimeNode : Node :=
  { GetAccountInfoWithOpts := fun i _ =>
      scripted [.error (.transient 7), .error (.permanent 8), .ok [1]] i,
    GetLatestBlockhash := fun i =>
      scripted [.error (.transient 7), .error (.permanent 8),
        .ok { Blockhash := [2], Slot := 5 }] i,
    SendTransactionWithOpts := fun i _ _ =>
      scripted [.error (.transient 7), .error (.permanent 8), .ok [3]] i }

/-! ## Theorems: pricing -/

/-- The code path for a positive payment, written over the specification's quantities. -/
theorem GetInitialBuyPrice_pos (g : GlobalAccount) (p : Nat) (hp : 0 < p) :
    g.GetInitialBuyPrice p =
      if specTokensOut g p < 0 then .error .negativeTokenAmount
      else if !bigIsUint64 (specTokensOut g p) then .error .tokenAmountOverflow
      else if bigUint64 (specTokensOut g p) < g.InitialRealTokenReserves
        then .ok (bigUint64 (specTokensOut g p))
      else .ok g.InitialRealTokenReserves := by
  have h20 : bigDiv (Int.ofNat p) 20 = .ok ((p / 20 : Nat) : Int) := by
    simp [bigDiv]
  have hnb : (Int.ofNat g.InitialVirtualSolReserves + (Int.ofNat p + ((p / 20 : Nat) : Int)))
      = ((specNewBase g p : Nat) : Int) := by
    simp [specNewBase, specEffective]
  have hne : ((specNewBase g p : Nat) : Int) ≠ 0 := by
    have : 0 < specNewBase g p := by unfold specNewBase specEffective; omega
    exact_mod_cast this.ne'
  have hk : Int.ofNat g.InitialVirtualSolReserves * Int.ofNat g.InitialVirtualTokenReserves
      = ((specK g : Nat) : Int) := by
    simp [specK, Int.mul_comm]
  have hdiv : bigDiv ((specK g : Nat) : Int) ((specNewBase g p : Nat) : Int)
      = .ok (((specK g / specNewBase g p : Nat)) : Int) := by
    simp [bigDiv, hne]
  have hs : Int.ofNat g.InitialVirtualTokenReserves
      - ((((specK g / specNewBase g p : Nat)) : Int) + 1) = specTokensOut g p := by
    simp [specTokensOut, specRemaining]
  unfold GlobalAccount.GetInitialBuyPrice
  rw [if_neg (by omega)]
  simp only [h20, hnb, hk, hdiv, hs, Except.bind]

/-- A value that passes `IsUint64` is what `Uint64` returns. -/
theorem bigUint64_of_range (x : Int) (h0 : 0 ≤ x) (h1 : x < 2 ^ 64) :
    bigUint64 x = x.toNat := by
  unfold bigUint64
  have hx : ((x.natAbs : Nat) : Int) = x := Int.natAbs_of_nonneg h0
  have hlt : x.natAbs < 2 ^ 64 := by omega
  rw [Nat.mod_eq_of_lt hlt]
  omega

/-- C1. `GetInitialBuyPrice` agrees with the specification's rule computed over unbounded
integers: a zero payment gives 0 without error; for a positive payment the new base
reserves are not 0 and, whenever `tokens_out` lies in `[0, 2^64)`, the result is
`min(tokens_out, InitialRealTokenReserves)` without error; at the golden state
(virtual reserves 1_073_000_000_000_000 and 30_000_000_000_000, payment 10_000_000, real
reserves at least 375_549_868) the result is 375_549_868. -/
theorem GetInitialBuyPrice_refines_spec (g : GlobalAccount) (p : Nat) :
    (p = 0 → g.GetInitialBuyPrice p = .ok 0) ∧
    (0 < p → specNewBase g p ≠ 0 ∧
      (0 ≤ specTokensOut g p → specTokensOut g p < 2 ^ 64 →
        g.GetInitialBuyPrice p
          = .ok (min (specTokensOut g p).toNat g.InitialRealTokenReserves))) ∧
    (p = 10000000 → g.InitialVirtualTokenReserves = 1073000000000000 →
      g.InitialVirtualSolReserves = 30000000000000 →
      375549868 ≤ g.InitialRealTokenReserves →
        g.GetInitialBuyPrice p = .ok 375549868) := by
  have main : 0 < p → 0 ≤ specTokensOut g p → specTokensOut g p < 2 ^ 64 →
      g.GetInitialBuyPrice p
        = .ok (min (specTokensOut g p).toNat g.InitialRealTokenReserves) := by
    intro hp h0 h1
    rw [GetInitialBuyPrice_pos g p hp, if_neg (by omega)]
    have hu : bigIsUint64 (specTokensOut g p) = true := by
      simp only [bigIsUint64, decide_eq_true h0, decide_eq_true h1, Bool.and_self]
    rw [hu, bigUint64_of_range _ h0 h1]
    by_cases hlt : (specTokensOut g p).toNat < g.InitialRealTokenReserves
    · simp [hlt, Nat.min_eq_left (Nat.le_of_lt hlt)]
    · simp [hlt, Nat.min_eq_right (Nat.le_of_not_lt hlt)]
  refine ⟨?_, ?_, ?_⟩
  · intro h0
    subst h0
    simp [GlobalAccount.GetInitialBuyPrice]
  · intro hp
    refine ⟨?_, main hp⟩
    unfold specNewBase specEffective
    omega
  · intro hp hvt hvs hreal
    have hout : specTokensOut g p = 375549868 := by
      simp only [specTokensOut, specRemaining, specK, specNewBase, specEffective, hp, hvt, hvs]
      norm_num
    have := main (by omega) (by rw [hout]; norm_num) (by rw [hout]; norm_num)
    rw [this, hout]
    have : (375549868 : Int).toNat = 375549868 := rfl
    rw [this, Nat.min_eq_left hreal]

/-- C1 at the golden state with real reserves 793_100_000_000_000. -/
theorem GetInitialBuyPrice_refines_spec_witness :
    (0 < 10000000 ∧ (0 : Int) ≤ specTokensOut (goldenState 793100000000000) 10000000 ∧
      specTokensOut (goldenState 793100000000000) 10000000 < 2 ^ 64) ∧
    (goldenState 793100000000000).GetInitialBuyPrice 10000000 = .ok 375549868 :=
  ⟨by decide, (GetInitialBuyPrice_refines_spec (goldenState 793100000000000) 10000000).2.2
    rfl rfl rfl (by decide)⟩

/-- C2. Whenever `GetInitialBuyPrice` returns a token amount, that amount is at most
`InitialRealTokenReserves`. -/
theorem GetInitialBuyPrice_le_real (g : GlobalAccount) (p v : Nat)
    (h : g.GetInitialBuyPrice p = .ok v) : v ≤ g.InitialRealTokenReserves := by
  rcases Nat.eq_zero_or_pos p with hp | hp
  · subst hp
    simp [GlobalAccount.GetInitialBuyPrice] at h
    omega
  · rw [GetInitialBuyPrice_pos g p hp] at h
    split_ifs at h with h1 h2 h3
    · injection h with h
      omega
    · injection h with h
      omega

/-- C2 at the golden state with real reserves 100: the clamp applies and 100 is returned. -/
theorem GetInitialBuyPrice_le_real_witness :
    (goldenState 100).GetInitialBuyPrice 10000000 = .ok 100 ∧
      100 ≤ (goldenState 100).InitialRealTokenReserves :=
  ⟨by decide, GetInitialBuyPrice_le_real (goldenState 100) 10000000 100 (by decide)⟩

/-- C3. For a positive payment, if the virtual token reserves are smaller than the
remaining-tokens term `floor(vToken * vBase / (vBase + p + floor(p/20))) + 1`, the result
is the negative-quantity error; and there is a well-formed state and a 64-bit payment whose
buffered payment exceeds the virtual base reserves for which that error is returned. -/
theorem GetInitialBuyPrice_negative (g : GlobalAccount) (p : Nat) (hp : 0 < p)
    (h : g.InitialVirtualTokenReserves <
      g.InitialVirtualTokenReserves * g.InitialVirtualSolReserves
        / (g.InitialVirtualSolReserves + (p + p / 20)) + 1) :
    g.GetInitialBuyPrice p = .error .negativeTokenAmount ∧
    ∃ (g' : GlobalAccount) (p' : Nat), g'.WellFormed ∧ 0 < p' ∧ p' < 2 ^ 64 ∧
      g'.InitialVirtualSolReserves < p' + p' / 20 ∧
      g'.GetInitialBuyPrice p' = .error .negativeTokenAmount := by
  refine ⟨?_, drainedState, 100, by decide, by decide, by decide, by decide, by decide⟩
  rw [GetInitialBuyPrice_pos g p hp]
  have : specTokensOut g p < 0 := by
    simp only [specTokensOut, specRemaining, specK, specNewBase, specEffective]
    omega
  rw [if_pos this]

/-- C3 at the drained state with payment 100 (buffered payment 105 against base reserves 1). -/
theorem GetInitialBuyPrice_negative_witness :
    drainedState.GetInitialBuyPrice 100 = .error .negativeTokenAmount :=
  (GetInitialBuyPrice_negative drainedState 100 (by decide) (by decide)).1

/-! ## Theorems: instruction payloads -/

/-- The buy discriminator, evaluated. -/
theorem buyDiscriminator_eq :
    (Sum256 (goBytes "global:buy")).take 8 = [102, 6, 61, 18, 1, 218, 235, 234] := by
  decide!

/-- The create discriminator, evaluated. -/
theorem createDiscriminator_eq :
    (Sum256 (goBytes "global:create")).take 8 = [24, 30, 200, 40, 5, 28, 7, 119] := by
  decide!

/-- The behaviour of `specByte` under a shift by one byte. -/
theorem specByte_succ (n i : Nat) : specByte n (i + 1) = specByte (n / 256) i := by
  unfold specByte
  rw [pow_succ', Nat.div_div_eq_div_mul]

/-- The little-endian bytes, one byte at a time. -/
theorem specLE_succ (k n : Nat) :
    specLE (k + 1) n = UInt8.ofNat (n % 256) :: specLE k (n / 256) := by
  unfold specLE
  rw [List.range_succ_eq_map, List.map_cons, List.map_map]
  congr 1
  · simp [specByte]
  · apply List.map_congr_left
    intro i _
    exact specByte_succ n i

/-- Decoding the `k` little-endian bytes of `n` gives `n` modulo `256 ^ k`. -/
theorem leValue_specLE (k : Nat) : ∀ n : Nat, leValue (specLE k n) = n % 256 ^ k := by
  induction k with
  | zero => intro n; simp [specLE, leValue, Nat.mod_one]
  | succ k ih =>
    intro n
    have h : (UInt8.ofNat (n % 256)).toNat = n % 256 :=
      UInt8.toNat_ofNat_of_lt (Nat.mod_lt _ (by decide))
    rw [specLE_succ, leValue, ih, h, pow_succ', Nat.mod_mul]

/-- The length of the little-endian encoding. -/
theorem specLE_length (k n : Nat) : (specLE k n).length = k := by
  simp [specLE]

/-- The function `PutUint64` writes the 8 little-endian bytes. -/
theorem PutUint64_eq_specLE (v : Nat) : PutUint64 v = specLE 8 v := by
  simp [PutUint64, specLE, specByte, toByte, List.range, List.range.loop,
    Nat.shiftRight_eq_div_pow]

/-- The function `PutUint32` writes the 4 little-endian bytes. -/
theorem PutUint32_eq_specLE (v : Nat) : PutUint32 v = specLE 4 v := by
  simp [PutUint32, specLE, specByte, toByte, List.range, List.range.loop,
    Nat.shiftRight_eq_div_pow]

/-- The first 8 bytes of a digest are 8 bytes, for the two instruction names. -/
theorem discriminator_length :
    ((Sum256 (goBytes "global:buy")).take 8).length = 8 ∧
    ((Sum256 (goBytes "global:create")).take 8).length = 8 := by
  rw [buyDiscriminator_eq, createDiscriminator_eq]
  exact ⟨rfl, rfl⟩

/-- A 64-bit value is determined by its 8 little-endian bytes. -/
theorem specLE8_inj (a b : Nat) (ha : a < 2 ^ 64) (hb : b < 2 ^ 64)
    (h : specLE 8 a = specLE 8 b) : a = b := by
  have h1 := congrArg leValue h
  rw [leValue_specLE, leValue_specLE] at h1
  have e : (256 : Nat) ^ 8 = 2 ^ 64 := by norm_num
  rw [e, Nat.mod_eq_of_lt ha, Nat.mod_eq_of_lt hb] at h1
  exact h1

/-- A 32-bit value is determined by its 4 little-endian bytes. -/
theorem specLE4_inj (a b : Nat) (ha : a < 2 ^ 32) (hb : b < 2 ^ 32)
    (h : specLE 4 a = specLE 4 b) : a = b := by
  have h1 := congrArg leValue h
  rw [leValue_specLE, leValue_specLE] at h1
  have e : (256 : Nat) ^ 4 = 2 ^ 32 := by norm_num
  rw [e, Nat.mod_eq_of_lt ha, Nat.mod_eq_of_lt hb] at h1
  exact h1

/-- The borsh encoding of a string in the specification's words. -/
theorem borshString_eq (s : List UInt8) : borshString s = specLE 4 s.length ++ s := by
  unfold borshString
  rw [PutUint32_eq_specLE]
  congr 1
  apply List.ext_getElem
  · simp [specLE_length]
  · intro i h1 h2
    simp only [specLE, List.getElem_map, List.getElem_range, specByte]
    have hi : i < 4 := by simpa [specLE] using h1
    have e : (2 : Nat) ^ 32 = 256 ^ i * (256 * 256 ^ (3 - i)) := by
      rw [← pow_succ', ← pow_add]
      have : i + (3 - i + 1) = 4 := by omega
      rw [this]
      norm_num
    rw [e, Nat.mod_mul_right_div_self, Nat.mod_mul_right_mod]

/-- A borsh string followed by anything determines the string and what follows. -/
theorem borshString_append_inj (s t r u : List UInt8) (hs : s.length < 2 ^ 32)
    (ht : t.length < 2 ^ 32) (h : borshString s ++ r = borshString t ++ u) :
    s = t ∧ r = u := by
  rw [borshString_eq, borshString_eq, List.append_assoc, List.append_assoc] at h
  have h1 := List.append_inj h (by rw [specLE_length, specLE_length])
  have hlen : s.length = t.length := specLE4_inj _ _ hs ht h1.1
  exact List.append_inj h1.2 hlen

/-- The borsh encoding of `CreateData` determines the value. -/
theorem borshSerializeCreateData_inj (c d : CreateData)
    (hc : c.Name.length < 2 ^ 32 ∧ c.Symbol.length < 2 ^ 32 ∧ c.Uri.length < 2 ^ 32)
    (hd : d.Name.length < 2 ^ 32 ∧ d.Symbol.length < 2 ^ 32 ∧ d.Uri.length < 2 ^ 32)
    (h : borshSerializeCreateData c = borshSerializeCreateData d) : c = d := by
  unfold borshSerializeCreateData at h
  obtain ⟨h1, h⟩ := borshString_append_inj _ _ _ _ hc.1 hd.1 h
  obtain ⟨h2, h⟩ := borshString_append_inj _ _ _ _ hc.2.1 hd.2.1 h
  obtain ⟨h3, h4⟩ := borshString_append_inj _ _ _ _ hc.2.2 hd.2.2 h
  cases c
  cases d
  simp_all

/-- The borsh encoding of `BuyData` determines the value. -/
theorem borshSerializeBuyData_inj (c d : BuyData)
    (hc : c.Amount < 2 ^ 64 ∧ c.MaxSolCost < 2 ^ 64)
    (hd : d.Amount < 2 ^ 64 ∧ d.MaxSolCost < 2 ^ 64)
    (h : borshSerializeBuyData c = borshSerializeBuyData d) : c = d := by
  unfold borshSerializeBuyData at h
  simp only [PutUint64_eq_specLE] at h
  have h1 := List.append_inj h (by rw [specLE_length, specLE_length])
  have ha := specLE8_inj _ _ hc.1 hd.1 h1.1
  have hb := specLE8_inj _ _ hc.2 hd.2 h1.2
  cases c
  cases d
  simp_all

/-- Dropping the 8 discriminator bytes leaves the encoded arguments. -/
theorem drop_discriminator (disc args : List UInt8) (h : disc.length = 8) :
    (disc ++ args).drop 8 = args := by
  rw [← h, List.drop_left]

/-- Taking 8 bytes of a payload gives the discriminator. -/
theorem take_discriminator (disc args : List UInt8) (h : disc.length = 8) :
    (disc ++ args).take 8 = disc := by
  rw [← h, List.take_left]

/-- C4. The payload of the instruction returned by `NewBuyIx` is 24 bytes: the first 8
bytes of the SHA-256 digest of `"global:buy"`, then `amount` as 8 little-endian bytes, then
`maxSolCost` as 8 little-endian bytes; it is the same whatever the address arguments (and
the environment) are. -/
theorem NewBuyIx_payload (env : Env) (amount maxSolCost : Nat)
    (feeRecipient mint assocBondingCurve assocUser user systemProgram tokenProgram
      creatorVault eventAuthority : PublicKey) :
    (NewBuyIx env amount maxSolCost feeRecipient mint assocBondingCurve assocUser user
        systemProgram tokenProgram creatorVault eventAuthority).DataBytes
      = (Sum256 (goBytes "global:buy")).take 8 ++ (specLE 8 amount ++ specLE 8 maxSolCost) ∧
    (NewBuyIx env amount maxSolCost feeRecipient mint assocBondingCurve assocUser user
        systemProgram tokenProgram creatorVault eventAuthority).DataBytes.length = 24 ∧
    ∀ (env2 : Env) (feeRecipient2 mint2 assocBondingCurve2 assocUser2 user2 systemProgram2
        tokenProgram2 creatorVault2 eventAuthority2 : PublicKey),
      (NewBuyIx env2 amount maxSolCost feeRecipient2 mint2 assocBondingCurve2 assocUser2
          user2 systemProgram2 tokenProgram2 creatorVault2 eventAuthority2).DataBytes
        = (NewBuyIx env amount maxSolCost feeRecipient mint assocBondingCurve assocUser user
          systemProgram tokenProgram creatorVault eventAuthority).DataBytes := by
  have h : ∀ (e : Env) (a b c d f g h i j : PublicKey),
      (NewBuyIx e amount maxSolCost a b c d f g h i j).DataBytes
        = (Sum256 (goBytes "global:buy")).take 8
          ++ (specLE 8 amount ++ specLE 8 maxSolCost) := by
    intro e a b c d f g h i j
    simp only [NewBuyIx, borshSerializeBuyData, PutUint64_eq_specLE]
  refine ⟨h _ _ _ _ _ _ _ _ _ _, ?_, ?_⟩
  · rw [h, List.length_append, List.length_append, discriminator_length.1, specLE_length,
      specLE_length]
  · intro e a b c d f g i j k
    rw [h, h]

/-- The payload of `NewCreateIx`: discriminator, then the borsh encoding. -/
theorem NewCreateIx_data (env : Env) (mint user : PublicKey) (c : CreateData) :
    (NewCreateIx env mint user c).DataBytes
      = (Sum256 (goBytes "global:create")).take 8 ++ borshSerializeCreateData c := rfl

/-- The payload of `NewBuyIx`: discriminator, then the borsh encoding. -/
theorem NewBuyIx_data (env : Env) (amount maxSolCost : Nat)
    (a b c d f g h i j : PublicKey) :
    (NewBuyIx env amount maxSolCost a b c d f g h i j).DataBytes
      = (Sum256 (goBytes "global:buy")).take 8
        ++ borshSerializeBuyData { Amount := amount, MaxSolCost := maxSolCost } := rfl

/-- C5. The first 8 bytes of either payload are the first 8 hash bytes of `"global:create"`
(`NewCreateIx`) or `"global:buy"` (`NewBuyIx`) whatever the arguments; the create payload
after the discriminator is `len32le(name) ++ name ++ len32le(symbol) ++ symbol ++
len32le(uri) ++ uri ++ creator`; and the argument encoding is injective: two `CreateData`
values with strings shorter than `2^32` bytes that differ, and two `BuyData` values with
64-bit fields that differ, give payloads with the same first 8 bytes that differ after
offset 8. -/
theorem payload_discriminator_injective (env : Env) (mint user : PublicKey)
    (a b c d f g h i j : PublicKey) :
    (∀ cd : CreateData,
      (NewCreateIx env mint user cd).DataBytes.take 8
        = (Sum256 (goBytes "global:create")).take 8 ∧
      ((NewCreateIx env mint user cd).DataBytes.take 8).length = 8 ∧
      (NewCreateIx env mint user cd).DataBytes.drop 8
        = specLE 4 cd.Name.length ++ cd.Name ++ specLE 4 cd.Symbol.length ++ cd.Symbol
          ++ specLE 4 cd.Uri.length ++ cd.Uri ++ cd.Creator) ∧
    (∀ amount maxSolCost : Nat,
      (NewBuyIx env amount maxSolCost a b c d f g h i j).DataBytes.take 8
        = (Sum256 (goBytes "global:buy")).take 8 ∧
      ((NewBuyIx env amount maxSolCost a b c d f g h i j).DataBytes.take 8).length = 8) ∧
    (∀ c1 c2 : CreateData,
      c1.Name.length < 2 ^ 32 ∧ c1.Symbol.length < 2 ^ 32 ∧ c1.Uri.length < 2 ^ 32 →
      c2.Name.length < 2 ^ 32 ∧ c2.Symbol.length < 2 ^ 32 ∧ c2.Uri.length < 2 ^ 32 →
      c1 ≠ c2 →
      (NewCreateIx env mint user c1).DataBytes.take 8
        = (NewCreateIx env mint user c2).DataBytes.take 8 ∧
      (NewCreateIx env mint user c1).DataBytes.drop 8
        ≠ (NewCreateIx env mint user c2).DataBytes.drop 8) ∧
    (∀ b1 b2 : BuyData,
      b1.Amount < 2 ^ 64 ∧ b1.MaxSolCost < 2 ^ 64 →
      b2.Amount < 2 ^ 64 ∧ b2.MaxSolCost < 2 ^ 64 →
      b1 ≠ b2 →
      (NewBuyIx env b1.Amount b1.MaxSolCost a b c d f g h i j).DataBytes.take 8
        = (NewBuyIx env b2.Amount b2.MaxSolCost a b c d f g h i j).DataBytes.take 8 ∧
      (NewBuyIx env b1.Amount b1.MaxSolCost a b c d f g h i j).DataBytes.drop 8
        ≠ (NewBuyIx env b2.Amount b2.MaxSolCost a b c d f g h i j).DataBytes.drop 8) := by
  have hb := discriminator_length.1
  have hc := discriminator_length.2
  refine ⟨?_, ?_, ?_, ?_⟩
  · intro cd
    rw [NewCreateIx_data, take_discriminator _ _ hc, drop_discriminator _ _ hc]
    refine ⟨rfl, hc, ?_⟩
    simp only [borshSerializeCreateData, borshString_eq, List.append_assoc]
  · intro amount maxSolCost
    rw [NewBuyIx_data, take_discriminator _ _ hb]
    exact ⟨rfl, hb⟩
  · intro c1 c2 h1 h2 hne
    rw [NewCreateIx_data, NewCreateIx_data, take_discriminator _ _ hc,
      take_discriminator _ _ hc, drop_discriminator _ _ hc, drop_discriminator _ _ hc]
    exact ⟨rfl, fun e => hne (borshSerializeCreateData_inj c1 c2 h1 h2 e)⟩
  · intro b1 b2 h1 h2 hne
    rw [NewBuyIx_data, NewBuyIx_data, take_discriminator _ _ hb,
      take_discriminator _ _ hb, drop_discriminator _ _ hb, drop_discriminator _ _ hb]
    exact ⟨rfl, fun e => hne (borshSerializeBuyData_inj b1 b2 h1 h2 e)⟩

/-- C5 on two `CreateData` values that differ in the symbol, and on two `BuyData` values
that differ in the amount. -/
theorem payload_discriminator_injective_witness :
    ((NewCreateIx sampleEnv [] [] sampleCreateA).DataBytes.take 8
        = (NewCreateIx sampleEnv [] [] sampleCreateB).DataBytes.take 8 ∧
      (NewCreateIx sampleEnv [] [] sampleCreateA).DataBytes.drop 8
        ≠ (NewCreateIx sampleEnv [] [] sampleCreateB).DataBytes.drop 8) ∧
    ((NewBuyIx sampleEnv 1 7 [] [] [] [] [] [] [] [] []).DataBytes.take 8
        = (NewBuyIx sampleEnv 2 7 [] [] [] [] [] [] [] [] []).DataBytes.take 8 ∧
      (NewBuyIx sampleEnv 1 7 [] [] [] [] [] [] [] [] []).DataBytes.drop 8
        ≠ (NewBuyIx sampleEnv 2 7 [] [] [] [] [] [] [] [] []).DataBytes.drop 8) :=
  ⟨(payload_discriminator_injective sampleEnv [] [] [] [] [] [] [] [] [] [] []).2.2.1
      sampleCreateA sampleCreateB (by decide!) (by decide!) (by decide!),
   (payload_discriminator_injective sampleEnv [] [] [] [] [] [] [] [] [] [] []).2.2.2
      { Amount := 1, MaxSolCost := 7 } { Amount := 2, MaxSolCost := 7 }
      (by decide) (by decide) (by decide)⟩

/-- C6. The instruction returned by `NewBuyIx` targets the target program and has exactly
these 12 account entries, in this order: global PDA (seed `"global"`; read-only),
feeRecipient (writable), mint (read-only), bonding-curve PDA (seeds `"bonding-curve"`, mint;
writable), assocBondingCurve (writable), assocUser (writable), user (writable, signer),
systemProgram, tokenProgram (read-only), creatorVault (writable), eventAuthority, target
program (read-only); the user entry, at index 6, is the only one flagged as signer. -/
theorem NewBuyIx_accounts (env : Env) (amount maxSolCost : Nat)
    (feeRecipient mint assocBondingCurve assocUser user systemProgram tokenProgram
      creatorVault eventAuthority : PublicKey) :
    (NewBuyIx env amount maxSolCost feeRecipient mint assocBondingCurve assocUser user
        systemProgram tokenProgram creatorVault eventAuthority).ProgID = env.program ∧
    (NewBuyIx env amount maxSolCost feeRecipient mint assocBondingCurve assocUser user
        systemProgram tokenProgram creatorVault eventAuthority).AccountValues.length = 12 ∧
    (NewBuyIx env amount maxSolCost feeRecipient mint assocBondingCurve assocUser user
        systemProgram tokenProgram creatorVault eventAuthority).AccountValues
      = [⟨(env.FindProgramAddress [goBytes "global"] env.program).1, false, false⟩,
         ⟨feeRecipient, true, false⟩,
         ⟨mint, false, false⟩,
         ⟨(env.FindProgramAddress [goBytes "bonding-curve", mint] env.program).1, true, false⟩,
         ⟨assocBondingCurve, true, false⟩,
         ⟨assocUser, true, false⟩,
         ⟨user, true, true⟩,
         ⟨systemProgram, false, false⟩,
         ⟨tokenProgram, false, false⟩,
         ⟨creatorVault, true, false⟩,
         ⟨eventAuthority, false, false⟩,
         ⟨env.program, false, false⟩] ∧
    (List.range 12).filter (fun i =>
        ((NewBuyIx env amount maxSolCost feeRecipient mint assocBondingCurve assocUser user
          systemProgram tokenProgram creatorVault eventAuthority).AccountValues.map
            AccountMeta.IsSigner).getD i false) = [6] :=
  ⟨rfl, rfl, rfl, rfl⟩

/-- C7. The instruction returned by `NewCreateIx` targets the target program and has
exactly these 14 account entries, in this order: mint (writable, signer), mint-authority PDA
(read-only), bonding-curve PDA of the mint (read-only), associated-bonding-curve account
derived from (bonding curve, token program, mint) under the associated-token-account program
(writable), global PDA (writable), metadata program (read-only), metadata PDA derived from
(`"metadata"`, metadata program, mint) under the metadata program (writable), user (writable,
signer), then system program, token program, associated-token-account program, rent sysvar,
event authority and target program, all read-only and not signers. -/
theorem NewCreateIx_accounts (env : Env) (mint user : PublicKey) (createData : CreateData) :
    (NewCreateIx env mint user createData).ProgID = env.program ∧
    (NewCreateIx env mint user createData).AccountValues.length = 14 ∧
    (NewCreateIx env mint user createData).AccountValues
      = [⟨mint, true, true⟩,
         ⟨(env.FindProgramAddress [goBytes "mint-authority"] env.program).1, false, false⟩,
         ⟨(env.FindProgramAddress [goBytes "bonding-curve", mint] env.program).1, false, false⟩,
         ⟨(env.FindProgramAddress
            [(env.FindProgramAddress [goBytes "bonding-curve", mint] env.program).1,
              TokenProgramID, mint] AssociatedTokenProgramID).1, true, false⟩,
         ⟨(env.FindProgramAddress [goBytes "global"] env.program).1, true, false⟩,
         ⟨mplTokenMetadata, false, false⟩,
         ⟨(env.FindProgramAddress [goBytes "metadata", mplTokenMetadata, mint]
            mplTokenMetadata).1, true, false⟩,
         ⟨user, true, true⟩,
         ⟨SystemProgramID, false, false⟩,
         ⟨TokenProgramID, false, false⟩,
         ⟨AssociatedTokenProgramID, false, false⟩,
         ⟨SysVarRentPubkey, false, false⟩,
         ⟨eventAuthority, false, false⟩,
         ⟨env.program, false, false⟩] :=
  ⟨rfl, rfl, rfl⟩

/-! ## Theorems: retry loops -/

/-- A retry block, case by case on the outcomes of the three attempts. -/
theorem retryBlock_cases {ε α : Type} (op : RemoteOp) (call : Nat → Except RPCError α)
    (wrap : RPCError → ε) :
    retryBlock op call wrap =
      match call 0 with
      | .ok v => { result := .ok (some v), events := [Event.call op 0] }
      | .error _ =>
        match call 1 with
        | .ok v =>
          { result := .ok (some v),
            events := [Event.call op 0, Event.sleep 1, Event.call op 1] }
        | .error _ =>
          match call 2 with
          | .ok v =>
            { result := .ok (some v),
              events := [Event.call op 0, Event.sleep 1, Event.call op 1, Event.sleep 2,
                Event.call op 2] }
          | .error e =>
            { result := .error (wrap e),
              events := [Event.call op 0, Event.sleep 1, Event.call op 1, Event.sleep 2,
                Event.call op 2, Event.sleep 3] } := by
  unfold retryBlock
  simp only [retryLoop]
  cases h0 : call 0 with
  | ok v => simp
  | error e0 =>
    cases h1 : call 1 with
    | ok v => simp [h1]
    | error e1 =>
      cases h2 : call 2 with
      | ok v => simp [h1, h2]
      | error e2 => simp [h1, h2]

/-- The events of a retry block are calls of its own operation and sleeps. -/
theorem retryBlock_events_op {ε α : Type} (op : RemoteOp) (call : Nat → Except RPCError α)
    (wrap : RPCError → ε) (ev : Event) (h : ev ∈ (retryBlock op call wrap).events) :
    (∃ i, ev = Event.call op i) ∨ ∃ s, ev = Event.sleep s := by
  rw [retryBlock_cases] at h
  cases h0 : call 0 <;> cases h1 : call 1 <;> cases h2 : call 2 <;>
    simp only [h0, h1, h2] at h <;> simp at h <;> aesop

/-- A retry block follows the retry rule for the outcomes of its attempts. -/
theorem retryBlock_retriesThreeTimes {ε α : Type} (op : RemoteOp)
    (out : Nat → Except RPCError α) (wrap : RPCError → ε) :
    RetriesThreeTimes op out wrap (retryBlock op out wrap) := by
  unfold RetriesThreeTimes
  have hsucc : ∀ i v, i < 3 → (∀ j, j < i → ∃ e, out j = .error e) → out i = .ok v →
      (retryBlock op out wrap).result = .ok (some v) ∧
      (retryBlock op out wrap).events = failedAttempts op i ++ [Event.call op i] ∧
      attempts (retryBlock op out wrap).events = i + 1 := by
    intro i v hi hprev hcall
    rw [retryBlock_cases]
    have hi' : i = 0 ∨ i = 1 ∨ i = 2 := by omega
    rcases hi' with rfl | rfl | rfl
    · simp [hcall, failedAttempts, attempts]
    · obtain ⟨e0, h0⟩ := hprev 0 (by omega)
      simp [h0, hcall, failedAttempts, attempts, List.range, List.range.loop]
    · obtain ⟨e0, h0⟩ := hprev 0 (by omega)
      obtain ⟨e1, h1⟩ := hprev 1 (by omega)
      simp [h0, h1, hcall, failedAttempts, attempts, List.range, List.range.loop]
  refine ⟨?_, hsucc, ?_, ?_, ?_, ?_⟩
  · rw [retryBlock_cases]
    cases out 0 <;> cases out 1 <;> cases out 2 <;> simp [attempts]
  · rw [retryBlock_cases]
    constructor
    · intro ⟨x, hx⟩ j hj
      have hj' : j = 0 ∨ j = 1 ∨ j = 2 := by omega
      cases c0 : out 0 <;> cases c1 : out 1 <;> cases c2 : out 2 <;>
        simp [c0, c1, c2] at hx
      rcases hj' with rfl | rfl | rfl
      · exact ⟨_, c0⟩
      · exact ⟨_, c1⟩
      · exact ⟨_, c2⟩
    · intro h
      obtain ⟨e0, h0⟩ := h 0 (by omega)
      obtain ⟨e1, h1⟩ := h 1 (by omega)
      obtain ⟨e2, h2⟩ := h 2 (by omega)
      exact ⟨wrap e2, by simp [h0, h1, h2]⟩
  · intro e hprev hcall
    obtain ⟨e0, h0⟩ := hprev 0 (by omega)
    obtain ⟨e1, h1⟩ := hprev 1 (by omega)
    rw [retryBlock_cases]
    simp [h0, h1, hcall, failedAttempts, attempts, List.range, List.range.loop]
  · intro e1 e2 v h0 h1 h2
    refine (hsucc 2 v (by omega) ?_ h2).1
    intro j hj
    have hj' : j = 0 ∨ j = 1 := by omega
    rcases hj' with rfl | rfl
    · exact ⟨_, h0⟩
    · exact ⟨_, h1⟩
  · intro v h0
    exact (hsucc 0 v (by omega) (fun j hj => absurd hj (Nat.not_lt_zero j)) h0).1

/-- A call under a context that has not expired returns the answer of the node. -/
theorem Context.call_live {α : Type} (ctx : Context) (now : Nat)
    (answer : Except RPCError α) (h : now < ctx.deadline) : ctx.call now answer = answer := by
  unfold Context.call
  rw [if_neg (by omega)]

/-- A call under an expired context returns `context deadline exceeded`. -/
theorem Context.call_expired {α : Type} (ctx : Context) (now : Nat)
    (answer : Except RPCError α) (h : ctx.deadline ≤ now) :
    ctx.call now answer = .error .deadlineExceeded := by
  unfold Context.call
  rw [if_pos h]

/-- The seconds waited in the events of `k` failed attempts are those counted by
`waitedBefore`. -/
theorem slept_failedAttempts (op : RemoteOp) (k : Nat) :
    slept (failedAttempts op k) = waitedBefore k := by
  induction k with
  | zero => rfl
  | succ k ih =>
    unfold slept failedAttempts waitedBefore at *
    rw [List.range_succ]
    simp only [List.flatMap_append, List.map_append, List.sum_append, ih]
    simp

/-- Under the 3 s context that `AddBuyInstruction` makes, the first two attempts of the
global-state fetch return the answers of the node and the third, made after waits of 1 s
and 2 s, returns `context deadline exceeded`. -/
theorem accountInfoAttempt_under_timeout (node : Node) (now : Nat) (key : PublicKey) :
    accountInfoAttempt node (WithTimeout now 3) now key 0
      = node.GetAccountInfoWithOpts 0 key ∧
    accountInfoAttempt node (WithTimeout now 3) now key 1
      = node.GetAccountInfoWithOpts 1 key ∧
    accountInfoAttempt node (WithTimeout now 3) now key 2 = .error .deadlineExceeded := by
  refine ⟨?_, ?_, ?_⟩
  · exact Context.call_live _ _ _ (by simp [WithTimeout, waitedBefore])
  · exact Context.call_live _ _ _
      (by simp [WithTimeout, waitedBefore, List.range, List.range.loop])
  · exact Context.call_expired _ _ _
      (by simp [WithTimeout, waitedBefore, List.range, List.range.loop])

/-- C9. Each of the three retry blocks (global-state fetch, blockhash fetch, submission),
as a function of the outcomes of its attempts, makes at most 3 attempts, stops at the first
successful attempt and yields its value, fails exactly when all 3 attempts fail and then
returns the third error, wrapped; the wait after failed attempt `i` (from 1) is `i`
seconds; the outcomes `[fail, fail, ok v]` yield the value `v` as `[ok v]` does; and an
attempt returns the answer of the node under a context that has not expired,
`context deadline exceeded` under one that has. -/
theorem retry_three_attempts (node : Node) (ctx : Context) (now : Nat) (key : PublicKey)
    (tx : Transaction) (slot : Nat) :
    RetriesThreeTimes .getAccountInfo (accountInfoAttempt node ctx now key)
      GlobalError.accountInfoAfterRetries (accountInfoBlock node ctx now key) ∧
    RetriesThreeTimes .getLatestBlockhash (blockhashAttempt node ctx now)
      LaunchError.blockhashAfterRetries (blockhashBlock node ctx now) ∧
    RetriesThreeTimes .sendTransaction (sendAttempt node ctx now tx slot)
      LaunchError.sendAfterRetries (sendBlock node ctx now tx slot) ∧
    (∀ i, now + waitedBefore i < ctx.deadline →
      accountInfoAttempt node ctx now key i = node.GetAccountInfoWithOpts i key ∧
      blockhashAttempt node ctx now i = node.GetLatestBlockhash i ∧
      sendAttempt node ctx now tx slot i = node.SendTransactionWithOpts i tx
        { SkipPreflight := false, PreflightCommitmentProcessed := true,
          MinContextSlot := some slot }) ∧
    (∀ i, ctx.deadline ≤ now + waitedBefore i →
      accountInfoAttempt node ctx now key i = .error .deadlineExceeded ∧
      blockhashAttempt node ctx now i = .error .deadlineExceeded ∧
      sendAttempt node ctx now tx slot i = .error .deadlineExceeded) :=
  ⟨retryBlock_retriesThreeTimes _ _ _, retryBlock_retriesThreeTimes _ _ _,
    retryBlock_retriesThreeTimes _ _ _,
    fun _ h => ⟨Context.call_live _ _ _ h, Context.call_live _ _ _ h,
      Context.call_live _ _ _ h⟩,
    fun _ h => ⟨Context.call_expired _ _ _ h, Context.call_expired _ _ _ h,
      Context.call_expired _ _ _ h⟩⟩

/-- C9 at the node that answers on the third attempt only: under the 30 s context the send
block returns the third answer after waits of 1 s and 2 s, in 3 attempts. -/
theorem retry_three_attempts_witness :
    (sendAttempt thirdTimeNode (WithTimeout 0 30) 0 sampleTx 5 2 = .ok [3] ∧
      thirdTimeNode.SendTransactionWithOpts 2 sampleTx
        { SkipPreflight := false, PreflightCommitmentProcessed := true,
          MinContextSlot := some 5 } = .ok [3]) ∧
    (sendBlock thirdTimeNode (WithTimeout 0 30) 0 sampleTx 5).result = .ok (some [3]) ∧
    (sendBlock thirdTimeNode (WithTimeout 0 30) 0 sampleTx 5).events
      = failedAttempts .sendTransaction 2 ++ [Event.call .sendTransaction 2] ∧
    attempts (sendBlock thirdTimeNode (WithTimeout 0 30) 0 sampleTx 5).events = 2 + 1 :=
  ⟨⟨rfl, rfl⟩,
    (retry_three_attempts thirdTimeNode (WithTimeout 0 30) 0 [] sampleTx 5).2.2.1.2.1 2 [3]
      (by decide)
      (fun j hj => by
        have hj' : j = 0 ∨ j = 1 := by omega
        rcases hj' with rfl | rfl
        · exact ⟨_, rfl⟩
        · exact ⟨_, rfl⟩)
      rfl⟩

/-! ## Theorems: signing -/

/-- When the getter resolves no key for one of the keys, the signing loop ends with an
error. -/
theorem signLoop_unresolved (sign : PrivateKey → Transaction → Except String (List UInt8))
    (tx : Transaction) (getter : PublicKey → Option PrivateKey) (key : PublicKey)
    (hnone : getter key = none) :
    ∀ (keys : List PublicKey) (sigs : List (List UInt8)), key ∈ keys →
      ∃ e, signLoop sign tx getter keys sigs = .error e := by
  intro keys
  induction keys with
  | nil => intro sigs h; simp at h
  | cons k ks ih =>
    intro sigs h
    cases hk : getter k with
    | none =>
      simp only [signLoop, hk]
      exact ⟨_, rfl⟩
    | some pk =>
      cases hs : sign pk tx with
      | error e =>
        simp only [signLoop, hk, hs]
        exact ⟨_, rfl⟩
      | ok s =>
        have hmem : key ∈ ks := by
          rcases List.mem_cons.mp h with h | h
          · subst h
            rw [hnone] at hk
            cases hk
          · exact h
        obtain ⟨e, he⟩ := ih (sigs ++ [s]) hmem
        simp only [signLoop, hk, hs]
        exact ⟨e, he⟩

/-- When the getter resolves no key for a required signer, `tx.Sign` returns an error. -/
theorem Sign_unresolved (sign : PrivateKey → Transaction → Except String (List UInt8))
    (tx : Transaction) (getter : PublicKey → Option PrivateKey) (key : PublicKey)
    (hkey : key ∈ tx.signerKeys) (hnone : getter key = none) :
    ∃ e, tx.Sign sign getter = .error e := by
  obtain ⟨e, he⟩ := signLoop_unresolved sign tx getter key hnone tx.signerKeys
    tx.Signatures hkey
  exact ⟨e, by simp [Transaction.Sign, he]⟩

/-- What `eraseDups` keeps was in the list or in the accumulator. -/
theorem mem_eraseDups_loop (x : PublicKey) :
    ∀ (l acc : List PublicKey), x ∈ List.eraseDups.loop l acc → x ∈ l ∨ x ∈ acc := by
  intro l
  induction l with
  | nil =>
    intro acc h
    simp [List.eraseDups.loop] at h
    exact Or.inr h
  | cons a as ih =>
    intro acc h
    unfold List.eraseDups.loop at h
    split at h
    · rcases ih acc h with h1 | h1
      · exact Or.inl (List.mem_cons_of_mem _ h1)
      · exact Or.inr h1
    · rcases ih (a :: acc) h with h1 | h1
      · exact Or.inl (List.mem_cons_of_mem _ h1)
      · rcases List.mem_cons.mp h1 with h2 | h2
        · exact Or.inl (by rw [h2]; exact List.mem_cons_self _ _)
        · exact Or.inr h2

/-- The signer keys of a transaction are its fee payer and the accounts flagged is-signer
in its instructions. -/
theorem mem_signerKeys (tx : Transaction) (key : PublicKey) (h : key ∈ tx.signerKeys) :
    key = tx.FeePayer ∨ ∃ ix ∈ tx.Instructions, ∃ m ∈ ix.AccountValues,
      m.IsSigner = true ∧ m.PublicKey = key := by
  unfold Transaction.signerKeys List.eraseDups at h
  rcases mem_eraseDups_loop key _ _ h with h1 | h1
  · rcases List.mem_cons.mp h1 with h2 | h2
    · exact Or.inl h2
    · right
      simp only [List.mem_flatMap, List.mem_map, List.mem_filter] at h2
      obtain ⟨ix, hix, m, ⟨hm, hs⟩, hk⟩ := h2
      exact ⟨ix, hix, m, hm, hs, hk⟩
  · simp at h1

/-- The events of `getGlobalAccount` are none or those of its retry block. -/
theorem getGlobalAccount_events (env : Env) (sv : Services) (node : Node) (ctx : Context)
    (now : Nat) :
    (getGlobalAccount env sv node ctx now).2 = [] ∨
      ∃ k, (getGlobalAccount env sv node ctx now).2
        = (accountInfoBlock node ctx now k).events := by
  unfold getGlobalAccount
  rcases hd : DeriveGlobal env env.program with ⟨k, b, e⟩
  cases e with
  | some err =>
    left
    simp only [hd]
  | none =>
    right
    refine ⟨k, ?_⟩
    simp only [hd]
    cases hr : (accountInfoBlock node ctx now k).result with
    | error err => rfl
    | ok o =>
      cases o with
      | none => rfl
      | some raw =>
        simp only []
        split_ifs
        · rfl
        · cases sv.Deserialize raw <;> rfl

/-- The events of `getGlobalAccount` hold no call of the send operation. -/
theorem getGlobalAccount_no_send (env : Env) (sv : Services) (node : Node) (ctx : Context)
    (now i : Nat) :
    Event.call .sendTransaction i ∉ (getGlobalAccount env sv node ctx now).2 := by
  have hblk : ∀ k, Event.call .sendTransaction i
      ∉ (accountInfoBlock node ctx now k).events := by
    intro k h
    rcases retryBlock_events_op _ _ _ _ h with ⟨j, hj⟩ | ⟨s, hs⟩
    · cases hj
    · cases hs
  rcases getGlobalAccount_events env sv node ctx now with h | ⟨k, h⟩
  · rw [h]
    simp
  · rw [h]
    exact hblk k

/-- The events of `AddBuyInstruction` hold no call of the send operation, and the
instruction it returns is a `NewBuyIx` for the given mint and the user of the client. -/
theorem AddBuyInstruction_cases (env : Env) (sv : Services) (node : Node) (c : RPCClient)
    (mint : PublicKey) (solAmount now : Nat) :
    (∀ i, Event.call .sendTransaction i
      ∉ (AddBuyInstruction env sv node c mint solAmount now).2) ∧
    ∀ ix, (AddBuyInstruction env sv node c mint solAmount now).1 = .ok ix →
      ∃ (amount maxSolCost : Nat) (fee abc au cv : PublicKey),
        ix = NewBuyIx env amount maxSolCost fee mint abc au c.user.PublicKey
          SystemProgramID TokenProgramID cv eventAuthority := by
  have h := getGlobalAccount_no_send env sv node (WithTimeout now 3) now
  unfold AddBuyInstruction
  simp only []
  rcases hg : getGlobalAccount env sv node (WithTimeout now 3) now with ⟨r, evs⟩
  rw [hg] at h
  cases r with
  | error err =>
    refine ⟨h, ?_⟩
    intro ix hix
    simp at hix
  | ok g =>
    simp only []
    cases hp : g.GetInitialBuyPrice solAmount with
    | error err =>
      refine ⟨h, ?_⟩
      intro ix hix
      simp at hix
    | ok buyAmount =>
      refine ⟨h, ?_⟩
      intro ix hix
      simp only [Except.ok.injEq] at hix
      exact ⟨_, _, _, _, _, _, hix.symm⟩

/-- The events of the blockhash block hold no call of the send operation. -/
theorem blockhashBlock_no_send (node : Node) (ctx : Context) (now i : Nat) :
    Event.call .sendTransaction i ∉ (blockhashBlock node ctx now).events := by
  intro h
  rcases retryBlock_events_op _ _ _ _ h with ⟨j, hj⟩ | ⟨s, hs⟩
  · cases hj
  · cases hs

/-- The accounts flagged is-signer in the create instruction are the mint and the user. -/
theorem NewCreateIx_signers (env : Env) (mint user : PublicKey) (cd : CreateData)
    (m : AccountMeta) (hm : m ∈ (NewCreateIx env mint user cd).AccountValues)
    (hs : m.IsSigner = true) : m.PublicKey = user ∨ m.PublicKey = mint := by
  simp only [NewCreateIx, List.mem_cons, List.mem_singleton, List.not_mem_nil, or_false] at hm
  rcases hm with h | h | h | h | h | h | h | h | h | h | h | h | h | h <;>
    subst h <;> simp at hs ⊢

/-- The account flagged is-signer in the buy instruction is the user. -/
theorem NewBuyIx_signers (env : Env) (amount maxSolCost : Nat)
    (a mint c d user f g h i : PublicKey) (m : AccountMeta)
    (hm : m ∈ (NewBuyIx env amount maxSolCost a mint c d user f g h i).AccountValues)
    (hs : m.IsSigner = true) : m.PublicKey = user ∨ m.PublicKey = mint := by
  simp only [NewBuyIx, List.mem_cons, List.mem_singleton, List.not_mem_nil, or_false] at hm
  rcases hm with h | h | h | h | h | h | h | h | h | h | h | h <;>
    subst h <;> simp at hs ⊢

/-- The account flagged is-signer in the associated-token-account instruction is the
payer. -/
theorem NewCreateInstruction_signers (env : Env) (payer wallet mint : PublicKey)
    (m : AccountMeta) (hm : m ∈ (NewCreateInstruction env payer wallet mint).AccountValues)
    (hs : m.IsSigner = true) : m.PublicKey = payer := by
  simp only [NewCreateInstruction, List.mem_cons, List.mem_singleton, List.not_mem_nil,
    or_false] at hm
  rcases hm with h | h | h | h | h | h | h <;> subst h <;> simp at hs ⊢

/-- The course of `LaunchToken`: either it returns before `tx.Sign`, without a send call;
or it hands `tx.Sign` a transaction whose signer keys are the user and the mint addresses,
and then either signing fails, the signing error is returned and no send call is made, or
signing succeeds and the signed transaction goes to the send loop. -/
theorem LaunchToken_cases (env : Env) (sv : Services)
    (sign : PrivateKey → Transaction → Except String (List UInt8)) (node : Node)
    (c : RPCClient) (fresh : Wallet) (metadata : Metadata) (metadataUri : List UInt8)
    (solAmount : Nat) :
    ((LaunchToken env sv sign node c fresh metadata metadataUri solAmount).tx = none ∧
      (LaunchToken env sv sign node c fresh metadata metadataUri solAmount).signed = none ∧
      ∀ i, Event.call .sendTransaction i
        ∉ (LaunchToken env sv sign node c fresh metadata metadataUri solAmount).events) ∨
    ∃ tx,
      (LaunchToken env sv sign node c fresh metadata metadataUri solAmount).tx = some tx ∧
      (∀ key, key ∈ tx.signerKeys → key = c.user.PublicKey ∨ key = fresh.PublicKey) ∧
      ((∃ e, tx.Sign sign (privateKeyGetter c.user fresh) = .error e ∧
          (LaunchToken env sv sign node c fresh metadata metadataUri solAmount).err
            = some (.sign e) ∧
          (LaunchToken env sv sign node c fresh metadata metadataUri solAmount).signed
            = none ∧
          ∀ i, Event.call .sendTransaction i
            ∉ (LaunchToken env sv sign node c fresh metadata metadataUri
              solAmount).events) ∨
        ∃ signed, tx.Sign sign (privateKeyGetter c.user fresh) = .ok signed ∧
          (LaunchToken env sv sign node c fresh metadata metadataUri solAmount).signed
            = some signed) := by
  obtain ⟨hbuy, hix⟩ := AddBuyInstruction_cases env sv node { c with mint := some fresh }
    fresh.PublicKey solAmount 0
  unfold LaunchToken
  simp only [AddCreateInstruction]
  rcases hb : AddBuyInstruction env sv node { user := c.user, mint := some fresh }
    fresh.PublicKey solAmount 0 with ⟨r, evs⟩
  rw [hb] at hbuy hix
  cases r with
  | error err =>
    left
    exact ⟨rfl, rfl, hbuy⟩
  | ok buyIx =>
    obtain ⟨amount, maxSolCost, fee, abc, au, cv, hbuyIx⟩ := hix buyIx rfl
    have hbh := blockhashBlock_no_send node (WithTimeout 0 30) (slept evs)
    have hevs : ∀ i, Event.call .sendTransaction i
        ∉ evs ++ (blockhashBlock node (WithTimeout 0 30) (slept evs)).events := by
      intro i hmem
      rcases List.mem_append.mp hmem with h | h
      · exact hbuy i h
      · exact hbh i h
    simp only []
    cases hbr : (blockhashBlock node (WithTimeout 0 30) (slept evs)).result with
    | error err =>
      left
      exact ⟨rfl, rfl, hevs⟩
    | ok o =>
      cases o with
      | none =>
        left
        exact ⟨rfl, rfl, hevs⟩
      | some bh =>
        right
        simp only [NewTransaction, List.length_cons, List.length_nil, Nat.reduceAdd,
          OfNat.ofNat_ne_zero, ↓reduceIte]
        obtain ⟨tx0, htx0⟩ : ∃ tx0 : Transaction, tx0 =
            { Instructions := [
                NewCreateIx env fresh.PublicKey c.user.PublicKey
                  { Name := metadata.Name, Symbol := metadata.Symbol, Uri := metadataUri,
                    Creator := c.user.PublicKey },
                NewCreateInstruction env c.user.PublicKey c.user.PublicKey fresh.PublicKey,
                buyIx],
              RecentBlockhash := bh.Blockhash, FeePayer := c.user.PublicKey,
              Signatures := [] } := ⟨_, rfl⟩
        simp only [← htx0]
        have hkeys : ∀ key, key ∈ tx0.signerKeys →
            key = c.user.PublicKey ∨ key = fresh.PublicKey := by
          intro key hkey
          rcases mem_signerKeys _ key hkey with h | ⟨ix, hmem, m, hm, hs, hk⟩
          · left
            rw [h, htx0]
          · rw [htx0] at hmem
            simp only [List.mem_cons, List.mem_singleton, List.not_mem_nil, or_false] at hmem
            rcases hmem with h | h | h
            · subst h
              rw [← hk]
              exact NewCreateIx_signers _ _ _ _ m hm hs
            · subst h
              rw [← hk]
              exact Or.inl (NewCreateInstruction_signers _ _ _ _ m hm hs)
            · subst h
              rw [hbuyIx] at hm
              rw [← hk]
              exact NewBuyIx_signers _ _ _ _ _ _ _ _ _ _ _ _ m hm hs
        cases hsg : tx0.Sign sign (privateKeyGetter c.user fresh) with
        | error e =>
          exact ⟨tx0, rfl, hkeys, Or.inl ⟨e, hsg, rfl, rfl, hevs⟩⟩
        | ok signed =>
          simp only []
          cases (sendBlock node (WithTimeout 0 30)
            (slept (evs ++ (blockhashBlock node (WithTimeout 0 30) (slept evs)).events))
            signed bh.Slot).result with
          | error err => exact ⟨tx0, rfl, hkeys, Or.inr ⟨signed, hsg, rfl⟩⟩
          | ok sig => exact ⟨tx0, rfl, hkeys, Or.inr ⟨signed, hsg, rfl⟩⟩

/-- C10. Signing resolves every required signer from exactly two keys: every account
flagged is-signer in the instructions of `NewCreateIx` and `NewBuyIx` is the user address
or the mint address; the getter of `LaunchToken` returns the user key for the user address,
the mint key for the mint address and no key for any other address; when the getter yields
no key for a required signer of a transaction, `tx.Sign` returns an error; and in every run
of `LaunchToken` each required signer of its transaction is resolved, an error of
`tx.Sign` is returned as the signing error without any send call, and a send call is made
only with the transaction that `tx.Sign` has signed. -/
theorem signing_resolves_two_keys
    (sign : PrivateKey → Transaction → Except String (List UInt8))
    (user mint : Wallet) (userKey mintKey : PublicKey) :
    (∀ (env : Env) (cd : CreateData) (m : AccountMeta),
      m ∈ (NewCreateIx env mintKey userKey cd).AccountValues → m.IsSigner = true →
        m.PublicKey = userKey ∨ m.PublicKey = mintKey) ∧
    (∀ (env : Env) (amount maxSolCost : Nat) (a c d f g h i : PublicKey) (m : AccountMeta),
      m ∈ (NewBuyIx env amount maxSolCost a mintKey c d userKey f g h i).AccountValues →
        m.IsSigner = true → m.PublicKey = userKey ∨ m.PublicKey = mintKey) ∧
    privateKeyGetter user mint user.PublicKey = some user.PrivateKey ∧
    privateKeyGetter user mint mint.PublicKey = some mint.PrivateKey ∧
    (∀ key, key ≠ user.PublicKey → key ≠ mint.PublicKey →
      privateKeyGetter user mint key = none) ∧
    (∀ (tx : Transaction) (key : PublicKey), key ∈ tx.signerKeys →
      privateKeyGetter user mint key = none →
        ∃ e, tx.Sign sign (privateKeyGetter user mint) = .error e) ∧
    (∀ (env : Env) (sv : Services) (node : Node) (c : RPCClient) (metadata : Metadata)
        (metadataUri : List UInt8) (solAmount : Nat),
      c.user = user →
      (∀ tx key,
        (LaunchToken env sv sign node c mint metadata metadataUri solAmount).tx = some tx →
        key ∈ tx.signerKeys →
          (key = user.PublicKey ∨ key = mint.PublicKey) ∧
          privateKeyGetter user mint key ≠ none) ∧
      (∀ tx e,
        (LaunchToken env sv sign node c mint metadata metadataUri solAmount).tx = some tx →
        tx.Sign sign (privateKeyGetter user mint) = .error e →
          (LaunchToken env sv sign node c mint metadata metadataUri solAmount).err
            = some (.sign e) ∧
          (LaunchToken env sv sign node c mint metadata metadataUri solAmount).signed
            = none ∧
          ∀ i, Event.call .sendTransaction i
            ∉ (LaunchToken env sv sign node c mint metadata metadataUri solAmount).events) ∧
      (∀ i, Event.call .sendTransaction i
          ∈ (LaunchToken env sv sign node c mint metadata metadataUri solAmount).events →
        ∃ tx signed,
          (LaunchToken env sv sign node c mint metadata metadataUri solAmount).tx
            = some tx ∧
          tx.Sign sign (privateKeyGetter user mint) = .ok signed ∧
          (LaunchToken env sv sign node c mint metadata metadataUri solAmount).signed
            = some signed)) := by
  have hmint : privateKeyGetter user mint mint.PublicKey = some mint.PrivateKey := by
    unfold privateKeyGetter
    by_cases h : mint.PublicKey = user.PublicKey
    · rw [if_pos h]
      have hk : user.PrivateKey = mint.PrivateKey := by
        cases hu : user.PrivateKey
        cases hm : mint.PrivateKey
        simp only [Wallet.PublicKey, hu, hm] at h
        rw [h]
      rw [hk]
    · rw [if_neg h, if_pos rfl]
  have hres : ∀ key, key = user.PublicKey ∨ key = mint.PublicKey →
      privateKeyGetter user mint key ≠ none := by
    intro key hkey
    rcases hkey with h | h
    · rw [h]
      simp [privateKeyGetter]
    · rw [h, hmint]
      simp
  refine ⟨fun env cd m hm hs => NewCreateIx_signers env mintKey userKey cd m hm hs,
    fun env amount maxSolCost a c d f g h i m hm hs =>
      NewBuyIx_signers env amount maxSolCost a mintKey c d userKey f g h i m hm hs,
    by simp [privateKeyGetter], hmint, ?_, ?_, ?_⟩
  · intro key h1 h2
    simp [privateKeyGetter, h1, h2]
  · intro tx key hkey hnone
    exact Sign_unresolved sign tx (privateKeyGetter user mint) key hkey hnone
  · intro env sv node c metadata metadataUri solAmount hc
    subst hc
    rcases LaunchToken_cases env sv sign node c mint metadata metadataUri solAmount with
      ⟨htx, hsigned, hsend⟩ | ⟨tx0, htx, hkeys, hcase⟩
    · refine ⟨?_, ?_, ?_⟩
      · intro tx key h
        rw [htx] at h
        cases h
      · intro tx e h
        rw [htx] at h
        cases h
      · intro i hi
        exact absurd hi (hsend i)
    · refine ⟨?_, ?_, ?_⟩
      · intro tx key h hkey
        rw [htx] at h
        cases h
        exact ⟨hkeys key hkey, hres key (hkeys key hkey)⟩
      · intro tx e h hsg
        rw [htx] at h
        cases h
        rcases hcase with ⟨e2, he2, herr, hsigned, hsend⟩ | ⟨signed, hs, _⟩
        · rw [he2] at hsg
          cases hsg
          exact ⟨herr, hsigned, hsend⟩
        · rw [hs] at hsg
          cases hsg
      · intro i hi
        rcases hcase with ⟨e2, he2, herr, hsigned, hsend⟩ | ⟨signed, hs, hsg⟩
        · exact absurd hi (hsend i)
        · exact ⟨tx0, signed, htx, hs, hsg⟩

/-- C10 at a transaction that asks for the signature of a third address: the getter of the
user and mint wallets has no key for it, and `tx.Sign` returns an error. -/
theorem signing_resolves_two_keys_witness :
    (strangerKey ∈ strangerTx.signerKeys ∧
      privateKeyGetter userWallet mintWallet strangerKey = none) ∧
    ∃ e, strangerTx.Sign sampleSign (privateKeyGetter userWallet mintWallet) = .error e :=
  ⟨⟨by decide!, by decide!⟩,
    (signing_resolves_two_keys sampleSign userWallet mintWallet [] []).2.2.2.2.2.1
      strangerTx strangerKey (by decide!) (by decide!)⟩

/-! ## Theorems: the error cases of the pricing rule -/

/-- With a positive payment and positive virtual token reserves the quotient
`floor(k / new_base)` is below the virtual token reserves. -/
theorem specQuotient_lt (g : GlobalAccount) (p : Nat) (hp : 0 < p)
    (hv : 0 < g.InitialVirtualTokenReserves) :
    specK g / specNewBase g p < g.InitialVirtualTokenReserves := by
  apply Nat.div_lt_of_lt_mul
  unfold specK specNewBase specEffective
  have he : 0 < p + p / 20 := by omega
  have hpos : 0 < (p + p / 20) * g.InitialVirtualTokenReserves := Nat.mul_pos he hv
  rw [Nat.add_mul, Nat.mul_comm g.InitialVirtualSolReserves]
  omega

/-- With a positive payment and positive virtual token reserves `tokens_out` lies in
`[0, vToken - 1]`. -/
theorem specTokensOut_bounds (g : GlobalAccount) (p : Nat) (hp : 0 < p)
    (hv : 0 < g.InitialVirtualTokenReserves) :
    0 ≤ specTokensOut g p ∧
      specTokensOut g p ≤ (g.InitialVirtualTokenReserves : Int) - 1 := by
  have h := specQuotient_lt g p hp hv
  unfold specTokensOut specRemaining
  generalize specK g / specNewBase g p = q at h ⊢
  omega

/-- Without virtual token reserves `tokens_out` is `-1`. -/
theorem specTokensOut_drained (g : GlobalAccount) (p : Nat)
    (hv : g.InitialVirtualTokenReserves = 0) : specTokensOut g p = -1 := by
  simp [specTokensOut, specRemaining, specK, hv]

/-- The quantity `tokens_out` in the words of the claim, with the denominator
`vBase + p + floor(p/20)`. -/
theorem specTokensOut_eq (g : GlobalAccount) (p : Nat) :
    specTokensOut g p = (g.InitialVirtualTokenReserves : Int)
      - (((g.InitialVirtualTokenReserves * g.InitialVirtualSolReserves
          / (g.InitialVirtualSolReserves + p + p / 20) : Nat) : Int) + 1) := by
  simp [specTokensOut, specRemaining, specK, specNewBase, specEffective, Nat.add_assoc]

/-- The result for a positive payment and positive 64-bit virtual token reserves is a
value, not an error. -/
theorem GetInitialBuyPrice_ok_of_pos (g : GlobalAccount) (p : Nat) (hp : 0 < p)
    (hv : 0 < g.InitialVirtualTokenReserves) (hg : g.InitialVirtualTokenReserves < 2 ^ 64) :
    ∃ v, g.GetInitialBuyPrice p = .ok v := by
  obtain ⟨h0, h1⟩ := specTokensOut_bounds g p hp hv
  have h2 : specTokensOut g p < 2 ^ 64 := by
    have : (g.InitialVirtualTokenReserves : Int) < 2 ^ 64 := by exact_mod_cast hg
    omega
  have hu : bigIsUint64 (specTokensOut g p) = true := by
    simp only [bigIsUint64, decide_eq_true h0, decide_eq_true h2, Bool.and_self]
  rw [GetInitialBuyPrice_pos g p hp, if_neg (by omega), hu]
  by_cases hlt : bigUint64 (specTokensOut g p) < g.InitialRealTokenReserves
  · refine ⟨bigUint64 (specTokensOut g p), ?_⟩
    simp [hlt]
  · refine ⟨g.InitialRealTokenReserves, ?_⟩
    simp [hlt]

/-- The result for a positive payment without virtual token reserves: the negative-quantity
error. -/
theorem GetInitialBuyPrice_error_of_drained (g : GlobalAccount) (p : Nat) (hp : 0 < p)
    (hv : g.InitialVirtualTokenReserves = 0) :
    g.GetInitialBuyPrice p = .error .negativeTokenAmount := by
  rw [GetInitialBuyPrice_pos g p hp, specTokensOut_drained g p hv]
  simp

/-- C11. For 64-bit virtual token reserves, `GetInitialBuyPrice` returns an error if and
only if the payment is positive and the virtual token reserves are 0, and the error is then
the negative-quantity one; for a positive payment and positive virtual token reserves,
whatever the virtual base reserves and the size of the payment, the unclamped quantity
`vToken - (floor(vToken * vBase / (vBase + p + floor(p/20))) + 1)` lies in
`[0, vToken - 1]`; the overflow error and the zero-divisor panic are never the result. -/
theorem GetInitialBuyPrice_error_iff (g : GlobalAccount) (p : Nat)
    (hg : g.InitialVirtualTokenReserves < 2 ^ 64) :
    ((∃ e, g.GetInitialBuyPrice p = .error e) ↔
      0 < p ∧ g.InitialVirtualTokenReserves = 0) ∧
    (0 < p → g.InitialVirtualTokenReserves = 0 →
      g.GetInitialBuyPrice p = .error .negativeTokenAmount) ∧
    (0 < p → 0 < g.InitialVirtualTokenReserves →
      (0 : Int) ≤ (g.InitialVirtualTokenReserves : Int)
        - (((g.InitialVirtualTokenReserves * g.InitialVirtualSolReserves
            / (g.InitialVirtualSolReserves + p + p / 20) : Nat) : Int) + 1) ∧
      (g.InitialVirtualTokenReserves : Int)
        - (((g.InitialVirtualTokenReserves * g.InitialVirtualSolReserves
            / (g.InitialVirtualSolReserves + p + p / 20) : Nat) : Int) + 1)
        ≤ (g.InitialVirtualTokenReserves : Int) - 1) ∧
    g.GetInitialBuyPrice p ≠ .error .tokenAmountOverflow ∧
    g.GetInitialBuyPrice p ≠ .error .divisionByZero := by
  have hzero : p = 0 → g.GetInitialBuyPrice p = .ok 0 := by
    intro h0
    subst h0
    simp [GlobalAccount.GetInitialBuyPrice]
  have hcases : (∃ v, g.GetInitialBuyPrice p = .ok v) ∨
      (0 < p ∧ g.InitialVirtualTokenReserves = 0 ∧
        g.GetInitialBuyPrice p = .error .negativeTokenAmount) := by
    rcases Nat.eq_zero_or_pos p with h0 | hp
    · exact Or.inl ⟨0, hzero h0⟩
    · rcases Nat.eq_zero_or_pos g.InitialVirtualTokenReserves with hv | hv
      · exact Or.inr ⟨hp, hv, GetInitialBuyPrice_error_of_drained g p hp hv⟩
      · exact Or.inl (GetInitialBuyPrice_ok_of_pos g p hp hv hg)
  refine ⟨⟨?_, ?_⟩, ?_, ?_, ?_, ?_⟩
  · rintro ⟨e, he⟩
    rcases hcases with ⟨v, hv⟩ | ⟨hp, hv, _⟩
    · rw [hv] at he
      cases he
    · exact ⟨hp, hv⟩
  · rintro ⟨hp, hv⟩
    exact ⟨_, GetInitialBuyPrice_error_of_drained g p hp hv⟩
  · intro hp hv
    exact GetInitialBuyPrice_error_of_drained g p hp hv
  · intro hp hv
    rw [← specTokensOut_eq]
    exact specTokensOut_bounds g p hp hv
  · intro h
    rcases hcases with ⟨v, hv⟩ | ⟨_, _, he⟩
    · rw [hv] at h
      cases h
    · rw [he] at h
      cases h
  · intro h
    rcases hcases with ⟨v, hv⟩ | ⟨_, _, he⟩
    · rw [hv] at h
      cases h
    · rw [he] at h
      cases h

/-- C11 at the drained state (no virtual token reserves, payment 100), where the error is
returned, and at the golden state with payment 10_000_000, where the unclamped quantity is
within its bounds. -/
theorem GetInitialBuyPrice_error_iff_witness :
    (drainedState.InitialVirtualTokenReserves < 2 ^ 64 ∧
      drainedState.GetInitialBuyPrice 100 = .error .negativeTokenAmount) ∧
    ((goldenState 793100000000000).InitialVirtualTokenReserves < 2 ^ 64 ∧
      (0 : Int) ≤ ((goldenState 793100000000000).InitialVirtualTokenReserves : Int)
        - ((((goldenState 793100000000000).InitialVirtualTokenReserves
              * (goldenState 793100000000000).InitialVirtualSolReserves
            / ((goldenState 793100000000000).InitialVirtualSolReserves + 10000000
              + 10000000 / 20) : Nat) : Int) + 1)) :=
  ⟨⟨by decide, (GetInitialBuyPrice_error_iff drainedState 100 (by decide)).2.1
      (by decide) rfl⟩,
   ⟨by decide, ((GetInitialBuyPrice_error_iff (goldenState 793100000000000) 10000000
      (by decide)).2.2.1 (by decide) (by decide)).1⟩⟩

end PumpfunLauncher
